import Mathlib

/-!
Verification of the UrbanAI legal/urban-planning search core against its
specification.  The JavaScript sources are shallowly embedded: JS numbers
are modelled as exact rationals `ℚ` (the real-valued classifier scores of
the query router, which involve `Math.sqrt`, are modelled in `ℝ`), JS
strings as Lean `String` or `List Char`, possibly-missing object fields as
`Option`, and code that can throw a `TypeError` as `Except String`.
Mutable per-request state is passed explicitly; the wall clock read by
`new Date()` is an explicit `now` parameter.

Layout: all definitions first (grouped by source file), then the theorems.
-/

set_option maxHeartbeats 1600000

namespace UrbanAI

/-! ## Query engine (src/vector-db/query_engine.js, class QueryEngine)

Only the pure merge/enhance/threshold/rerank logic is embedded; embedding
generation and the vector-store calls are external I/O, so the search
pipeline below starts from the per-namespace result lists those calls
return.  Display-only fields built by `extractDisplayInfo` and
`calculateRelevanceIndicators` are omitted: no property below mentions
them. -/

/-- The slice of a Pinecone match's metadata bag the engine reads:
`metadata.document_type` and `metadata.quality_score` (both may be
absent). -/
structure MatchMeta where
  document_type : Option String
  quality_score : Option ℚ
  deriving Repr, DecidableEq

/-- A raw nearest-neighbour match as returned by one namespace query. -/
structure RawMatch where
  id : String
  score : ℚ
  metadata : MatchMeta
  deriving Repr, DecidableEq

/-- A match after `mergeNamespaceResults` tagged it with its source
namespace and that namespace's weight (JS spreads the raw match and adds
`source_namespace` and `namespace_weight`). -/
structure MergedMatch where
  id : String
  score : ℚ
  metadata : MatchMeta
  source_namespace : String
  namespace_weight : ℚ
  deriving Repr, DecidableEq

/-- One element of the array built by the parallel fan-out in
`executeMultiNamespaceSearch`: `{ namespace, result: { matches }, error? }`.
(`namespace` is a Lean keyword, so the field is called `ns`.) -/
structure NamespaceResult where
  ns : String
  result_matches : List RawMatch
  error : Option String
  deriving Repr, DecidableEq

/-- JS `x || d` on a possibly-missing number: `undefined` and `0` are both
falsy and give the default. -/
def jsOrQ (x : Option ℚ) (d : ℚ) : ℚ :=
  match x with
  | some v => if v = 0 then d else v
  | none => d

/-- `String.prototype.toLowerCase` (ASCII), character-list based. -/
def jsToLower (s : String) : String := String.mk (s.data.map Char.toLower)

/-- config.defaultTopK. -/
def defaultTopK : ℕ := 10

/-- config.maxTopK. -/
def maxTopK : ℕ := 100

/-- config.defaultThreshold. -/
def defaultThreshold : ℚ := 0.5

/-- config.namespaceWeights. -/
def namespaceWeights : List (String × ℚ) :=
  [("__default__", 1.0), ("urbanistica-base", 1.0), ("laws-national", 0.9),
   ("jurisprudence", 0.8), ("laws-regional", 0.85)]

/-- config.legalContextBoost. -/
def legalContextBoost : ℚ := 0.15

/-- config.diversityBoost. -/
def diversityBoostFactor : ℚ := 0.1

/-- `this.config.namespaceWeights[namespace] || 1.0` in
`mergeNamespaceResults`. -/
def weightOf (ns : String) : ℚ := jsOrQ (namespaceWeights.lookup ns) 1.0

/-- The sort key `match.score * (match.namespace_weight || 1.0)` used by the
comparator inside `mergeNamespaceResults` (lines 297-302). -/
def weightedScore (m : MergedMatch) : ℚ :=
  m.score * jsOrQ (some m.namespace_weight) 1.0

/-- Descending comparison on the weighted score: `a` may precede `b` in the
merge ordering.  `scoreB - scoreA ≤ 0` for the JS comparator. -/
def mergeLE (a b : MergedMatch) : Prop := weightedScore b ≤ weightedScore a

instance : DecidableRel mergeLE := fun a b =>
  inferInstanceAs (Decidable (weightedScore b ≤ weightedScore a))

instance : IsTotal MergedMatch mergeLE := ⟨fun a b => le_total (weightedScore b) (weightedScore a)⟩

instance : IsTrans MergedMatch mergeLE :=
  ⟨fun _ _ _ h1 h2 => le_trans h2 h1⟩

/-- The namespace-tagging step of `mergeNamespaceResults` (lines 280-295):
an errored namespace contributes nothing; otherwise every match is spread
with `source_namespace` and `namespace_weight`.  Note the raw `score` field
is carried over unchanged. -/
def tagMatches (r : NamespaceResult) : List MergedMatch :=
  match r.error with
  | some _ => []
  | none => r.result_matches.map fun m =>
      { id := m.id, score := m.score, metadata := m.metadata,
        source_namespace := r.ns, namespace_weight := weightOf r.ns }

/-- QueryEngine.mergeNamespaceResults (lines 277-305): concatenate the
tagged per-namespace matches, sort descending by `score * weight`
(Array.prototype.sort is stable, modelled by a stable insertion sort), and
slice to the first `topK`. -/
def mergeNamespaceResults (results : List NamespaceResult) (topK : ℕ) :
    List MergedMatch :=
  ((results.flatMap tagMatches).insertionSort mergeLE).take topK

/-- `isLegalDocument` on a metadata bag:
`legalTypes.includes(metadata.document_type?.toLowerCase())`. -/
def isLegalMeta (meta : MatchMeta) : Bool :=
  match meta.document_type with
  | some t => ["legge", "decreto", "regolamento", "dpr", "dlgs", "sentenza"].contains (jsToLower t)
  | none => false

/-- QueryEngine.isLegalDocument (lines 330-334). -/
def isLegalDocument (m : MergedMatch) : Bool := isLegalMeta m.metadata

/-- The per-document-type diversity table of `calculateDiversityBoost`. -/
def diversityMap : List (String × ℚ) :=
  [("legge", 0.05), ("decreto", 0.04), ("regolamento", 0.03),
   ("sentenza", 0.06), ("dpr", 0.04), ("dlgs", 0.04)]

/-- `(diversityMap[docType] || 0) * this.config.diversityBoost` as a
function of the metadata bag. -/
def diversityBoostOf (meta : MatchMeta) : ℚ :=
  (match meta.document_type with
   | some t => (diversityMap.lookup (jsToLower t)).getD 0
   | none => 0) * diversityBoostFactor

/-- QueryEngine.calculateDiversityBoost (lines 336-351). -/
def calculateDiversityBoost (m : MergedMatch) : ℚ := diversityBoostOf m.metadata

/-- One step of QueryEngine.enhanceResults (lines 307-328): with the default
config (`enableLegalContext = true`) the legal-context boost and the
diversity boost are added to the match's own `score` field.  The raw score
is the one being incremented: no namespace weight appears here. -/
def enhanceMatch (m : MergedMatch) : MergedMatch :=
  let s := if isLegalDocument m then m.score + legalContextBoost else m.score
  { m with score := s + calculateDiversityBoost m }

/-- QueryEngine.enhanceResults (lines 307-328), restricted to the score
arithmetic (display-info fields omitted). -/
def enhanceResults (results : List MergedMatch) : List MergedMatch :=
  results.map enhanceMatch

/-- QueryEngine.applyThreshold (lines 404-406):
`results.filter(match => match.score >= threshold)`. -/
def applyThreshold (results : List MergedMatch) (threshold : ℚ) :
    List MergedMatch :=
  results.filter fun m => decide (threshold ≤ m.score)

/-- `a.metadata?.quality_score || 0` in the rerank comparator. -/
def qualityOf (m : MergedMatch) : ℚ := jsOrQ m.metadata.quality_score 0

/-- The rerank comparator of QueryEngine.rerankResults (lines 408-429),
expressed as "the comparator value of (a, b) is ≤ 0", i.e. `a` may stay
before `b`: primary descending score when the gap exceeds 0.1, then legal
documents first, then descending quality score. -/
def rerankLE (a b : MergedMatch) : Bool :=
  if (0.1 : ℚ) < |b.score - a.score| then decide (b.score ≤ a.score)
  else if isLegalDocument a && !isLegalDocument b then true
  else if !isLegalDocument a && isLegalDocument b then false
  else decide (qualityOf b ≤ qualityOf a)

/-- QueryEngine.rerankResults (lines 408-429): a stable sort of the
filtered matches by the comparator; scores are only read, never written. -/
def rerankResults (results : List MergedMatch) : List MergedMatch :=
  results.insertionSort fun a b => rerankLE a b = true

/-- `const adjustedTopK = Math.min(topK * 2, this.config.maxTopK)` in
QueryEngine.executeMultiNamespaceSearch (line 206). -/
def adjustedTopK (topK : ℕ) : ℕ := min (topK * 2) maxTopK

/-- The parallel branch of QueryEngine.executeMultiNamespaceSearch
(lines 208-239), starting from the settled per-namespace results: the merge
is called with `adjustedTopK`, not with the caller's `topK`. -/
def executeMultiNamespaceSearch (results : List NamespaceResult) (topK : ℕ) :
    List MergedMatch :=
  mergeNamespaceResults results (adjustedTopK topK)

/-- Steps 3-6 of QueryEngine.query (lines 93-111) after the embedding call,
with reranking enabled (the default): multi-namespace search, enhancement,
threshold, rerank.  No further truncation happens before
`formatQueryResponse` maps the list one-to-one. -/
def querySearch (results : List NamespaceResult) (topK : ℕ) (threshold : ℚ) :
    List MergedMatch :=
  rerankResults (applyThreshold (enhanceResults
    (executeMultiNamespaceSearch results topK)) threshold)

/-- One formatted entry of `formatQueryResponse` (lines 431-455), reduced to
the fields that matter for counting and scores.  `Number(score.toFixed(4))`
rounds to four decimals (Math-style rounding, half away from zero; scores
are nonnegative here so `round` agrees). -/
structure FormattedResult where
  rank : ℕ
  id : String
  score : ℚ
  deriving Repr, DecidableEq

/-- `Math.round`-style rounding (half up) on an exact rational, via
`Rat.floor (q + 1/2)`; agrees with Mathlib's `round` on `ℚ`. -/
def jsRound (q : ℚ) : ℤ := Rat.floor (q + 1 / 2)

/-- `Number(score.toFixed(4))`: round to four decimal places. -/
def round4 (q : ℚ) : ℚ := ((jsRound (q * 10000) : ℚ)) / 10000

/-- The `results` array built by QueryEngine.formatQueryResponse: a
one-to-one map of the final list, with `rank := index + 1`. -/
def formatResults (rs : List MergedMatch) : List FormattedResult :=
  rs.enum.map fun p => { rank := p.1 + 1, id := p.2.id, score := round4 p.2.score }

/-! ## Response generator (src/api/response_generator.js, class ResponseGenerator)

Only the source-type assignment and the bucketing it feeds are embedded;
answer-prose templates, citations and follow-ups are presentation detail no
claim mentions. -/

/-- ResponseGenerator.determineSourceType (lines 512-524).  The JS function
receives `(result, classification)` and reads only `result.source_namespace`;
`classification` is unused, so it is not a parameter here.  Note the first
condition already contains `=== 'laws-regional'`, so the second branch can
never be reached. -/
def determineSourceType (result : MergedMatch) : String :=
  if result.source_namespace = "laws-national" || result.source_namespace = "laws-regional" then
    "legal"
  else if result.source_namespace = "laws-regional" then
    "regional"
  else if result.source_namespace = "jurisprudence" then
    "jurisprudence"
  else
    "urban"

/-- ResponseGenerator.categorizeRelevance (lines 505-510). -/
def categorizeRelevance (score : ℚ) : String :=
  if (0.8 : ℚ) ≤ score then "high"
  else if (0.6 : ℚ) ≤ score then "medium"
  else if (0.4 : ℚ) ≤ score then "low"
  else "very_low"

/-- Descending-score comparison used by the `sort` in
`processSearchResults` (line 131). -/
def scoreDescLE (a b : MergedMatch) : Prop := b.score ≤ a.score

instance : DecidableRel scoreDescLE := fun a b =>
  inferInstanceAs (Decidable (b.score ≤ a.score))

/-- config.maxSources. -/
def maxSources : ℕ := 8

/-- One processed source of ResponseGenerator.processSearchResults
(lines 129-144), keeping the fields the buckets and the disclaimer read. -/
structure ProcessedSource where
  rank : ℕ
  score : ℚ
  source_namespace : String
  relevanceCategory : String
  sourceType : String
  deriving Repr, DecidableEq

/-- ResponseGenerator.processSearchResults (lines 129-144): stable sort by
descending score, slice to `maxSources`, annotate with rank, relevance
category and source type. -/
def processSearchResults (searchResults : List MergedMatch) : List ProcessedSource :=
  ((searchResults.insertionSort scoreDescLE).take maxSources).enum.map fun p =>
    { rank := p.1 + 1, score := p.2.score,
      source_namespace := p.2.source_namespace,
      relevanceCategory := categorizeRelevance p.2.score,
      sourceType := determineSourceType p.2 }

/-- The regional bucket of ResponseGenerator.generateComprehensiveAnswer
(line 186): `sources.filter(s => s.sourceType === 'regional')`. -/
def regionalBucket (sources : List ProcessedSource) : List ProcessedSource :=
  sources.filter fun s => decide (s.sourceType = "regional")

/-- `sources.some(s => s.sourceType === 'regional')` in
ResponseGenerator.generateLegalDisclaimer (line 440), which selects the
regional disclaimer template. -/
def hasRegionalSources (sources : List ProcessedSource) : Bool :=
  sources.any fun s => decide (s.sourceType = "regional")

/-! ## Shared text machinery

`List Char` models a JS string.  JS regexes in the sources are simple
enough (literal alternations, `\s` runs, digit runs, word boundaries) that
each one is embedded as a direct character-level scanner; all scanners take
a fuel argument (`length + 1` always suffices, since every step consumes at
least one character) so that they are structurally recursive and reduce
inside the kernel. -/

/-- JS regex word character `\w` = `[A-Za-z0-9_]`. -/
def isWordChar (c : Char) : Bool := c.isAlphanum || c = '_'

/-- JS regex whitespace `\s` (restricted to its ASCII members; the texts
modelled here contain no exotic Unicode spaces). -/
def isJsSpace (c : Char) : Bool :=
  c = ' ' || c = '\t' || c = '\n' || c = '\r' || c = '\x0b' || c = '\x0c'

/-- Word-character test for a possibly absent character (outside the string
counts as a non-word character). -/
def isWordOpt : Option Char → Bool
  | some c => isWordChar c
  | none => false

/-- JS regex `\b`: the position between `l` and `r` is a word boundary. -/
def isBoundary (l r : Option Char) : Bool := isWordOpt l != isWordOpt r

/-- `String.prototype.trim`. -/
def jsTrim (s : List Char) : List Char :=
  ((s.dropWhile isJsSpace).reverse.dropWhile isJsSpace).reverse

/-- `String.prototype.toLowerCase` (ASCII). -/
def toLowerList (s : List Char) : List Char := s.map Char.toLower

/-- `q.includes(sub)`: substring containment. -/
def containsSub (q sub : List Char) : Bool :=
  (List.range (q.length + 1)).any fun i => sub.isPrefixOf (q.drop i)

/-- Scanner for `s.replace(/\bLIT/g, repl)` with a literal pattern `pat`:
non-overlapping occurrences whose start lies on a `\b` boundary are
replaced.  `prev` is the character of the original string just before the
current position. -/
def replaceLitBGo (pat repl : List Char) : ℕ → Option Char → List Char → List Char
  | 0, _, s => s
  | _ + 1, _, [] => []
  | fuel + 1, prev, c :: rest =>
      if isBoundary prev (some c) && pat.isPrefixOf (c :: rest) && !pat.isEmpty then
        repl ++ replaceLitBGo pat repl fuel (some (pat.getLastD c)) ((c :: rest).drop pat.length)
      else
        c :: replaceLitBGo pat repl fuel (some c) rest

/-- `s.replace(/\bLIT/g, repl)` for a literal pattern. -/
def replaceLitB (pat repl s : List Char) : List Char :=
  replaceLitBGo pat repl (s.length + 1) none s

/-- Scanner for `query.replace(/\bcomma\s+(\d+)/g, 'comma $1')` in
QueryRouter.normalizeQuery: `\s+` and `(\d+)` are maximal-munch here
because a digit is not a space and the pattern ends with the digit run. -/
def replaceCommaNumGo : ℕ → Option Char → List Char → List Char
  | 0, _, s => s
  | _ + 1, _, [] => []
  | fuel + 1, prev, c :: rest =>
      let s := c :: rest
      let sp := (s.drop 5).takeWhile isJsSpace
      let afterSp := (s.drop 5).drop sp.length
      let ds := afterSp.takeWhile Char.isDigit
      if isBoundary prev (some c) && ("comma".data.isPrefixOf s)
          && sp.length > 0 && ds.length > 0 then
        "comma ".data ++ ds ++ replaceCommaNumGo fuel (some (ds.getLastD c)) (afterSp.drop ds.length)
      else
        c :: replaceCommaNumGo fuel (some c) rest

/-- `query.replace(/\bcomma\s+(\d+)/g, 'comma $1')`. -/
def replaceCommaNum (s : List Char) : List Char :=
  replaceCommaNumGo (s.length + 1) none s

/-- Scanner for `s.replace(/\s+/g, ' ')`. -/
def collapseWsGo : ℕ → List Char → List Char
  | 0, s => s
  | _ + 1, [] => []
  | fuel + 1, c :: rest =>
      if isJsSpace c then ' ' :: collapseWsGo fuel (rest.dropWhile isJsSpace)
      else c :: collapseWsGo fuel rest

/-- `s.replace(/\s+/g, ' ')`. -/
def collapseWs (s : List Char) : List Char := collapseWsGo (s.length + 1) s

/-- Counting scanner for the non-overlapping, word-boundary-delimited
occurrences of a literal keyword, as `(query.match(new RegExp('\\b' + esc +
'\\b', 'gi')) || []).length` counts them in QueryRouter.countMatches (both
query and keywords are already lower case there, so case-insensitivity is
vacuous). -/
def countKwGo (kw : List Char) : ℕ → Option Char → List Char → ℕ
  | 0, _, _ => 0
  | _ + 1, _, [] => 0
  | fuel + 1, prev, c :: rest =>
      let s := c :: rest
      if isBoundary prev (some c) && kw.isPrefixOf s && !kw.isEmpty
          && isBoundary (some (kw.getLastD c)) (s.drop kw.length).head? then
        1 + countKwGo kw fuel (some (kw.getLastD c)) (s.drop kw.length)
      else
        countKwGo kw fuel (some c) rest

/-- Count of boundary-delimited occurrences of one keyword. -/
def countKw (kw q : List Char) : ℕ := countKwGo kw (q.length + 1) none q

/-! ## Query router (src/api/query_router.js, class QueryRouter) -/

/-- this.legalKeywords (lines 31-52). -/
def legalKeywords : List String :=
  ["legge", "norma", "normativa", "decreto", "regolamento",
   "sentenza", "giurisprudenza", "articolo", "comma", "lettera",
   "abusivo", "sanzione", "multa", "permesso", "autorizzazione",
   "licenza", "concessione", "nullaosta", "parere", "visto",
   "nulla-osta", "requisiti", "adempimenti", "conformità",
   "cassazione", "tar", "consiglio stato", "tribunale", "corte",
   "prefettura", "ministero", "soprintendenza", "regione",
   "dpr", "dlgs", "d.lgs", "d.p.r", "legge quadro", "testo unico",
   "codice civile", "codice penale", "costituzione",
   "ricorso", "appello", "istanza", "domanda", "richiesta",
   "procedimento", "processo", "giudizio", "accertamento"]

/-- this.regionalKeywords (lines 55-73). -/
def regionalKeywords : List String :=
  ["lombardia", "lazio", "veneto", "piemonte", "campania",
   "sicilia", "emilia romagna", "emilia-romagna", "toscana",
   "puglia", "calabria", "sardegna", "liguria", "marche",
   "abruzzo", "umbria", "basilicata", "molise", "friuli",
   "trentino", "valle aosta", "valle d\'aosta",
   "regione", "regionale", "provinciale", "comunale",
   "bur", "bollettino ufficiale", "piano territoriale regionale",
   "ptr", "ptcp", "piano territoriale coordinamento",
   "piano paesaggistico", "piano casa", "legge regionale",
   "lr", "l.r.", "delibera regionale", "dgr",
   "giunta regionale", "consiglio regionale", "assessorato",
   "direzione regionale", "settore regionale"]

/-- this.urbanKeywords (lines 76-110). -/
def urbanKeywords : List String :=
  ["urbanistica", "urbanistico", "piano regolatore", "prg",
   "piano generale", "pgtu", "pgt", "piano strutturale",
   "piano operativo", "regolamento edilizio", "re",
   "zoning", "zonizzazione", "destinazione uso", "destinazione d\'uso",
   "zona residenziale", "zona commerciale", "zona industriale",
   "zona agricola", "zona mista", "zona servizi",
   "area edificabile", "area non edificabile",
   "volumetria", "volume", "altezza", "altezza massima",
   "distanze", "distanza minima", "arretramento",
   "indice edificabilità", "indice fondiario", "indice territoriale",
   "rapporto copertura", "superficie coperta",
   "standard urbanistici", "standard minimi", "parcheggi",
   "verde pubblico", "verde privato", "spazi pubblici",
   "servizi pubblici", "attrezzature pubbliche",
   "opere urbanizzazione", "urbanizzazione primaria",
   "urbanizzazione secondaria",
   "edificabilità", "edificabile", "permesso costruire",
   "scia", "dia", "cila", "comunicazione inizio lavori",
   "collaudo", "agibilità", "abitabilità", "certificato destinazione",
   "vincolo paesaggistico", "vincolo idrogeologico",
   "vincolo archeologico", "vincolo monumentale",
   "area protetta", "parco", "riserva naturale"]

/-- QueryRouter.normalizeQuery (lines 156-173): lowercase, trim, the fixed
abbreviation and region-name replacements, punctuation removal (everything
outside `\w`, `\s`, hyphen and apostrophe becomes a space), whitespace
collapse. -/
def normalizeQuery (q : List Char) : List Char :=
  collapseWs (
    (replaceLitB "valle d\'aosta".data "valle aosta".data (
      replaceLitB "emilia-romagna".data "emilia romagna".data (
        replaceCommaNum (
          replaceLitB "art.".data "articolo".data (
            replaceLitB "l.r.".data "lr".data (
              replaceLitB "d.p.r.".data "dpr".data (
                replaceLitB "d.lgs.".data "dlgs".data (
                  jsTrim (toLowerList q))))))))).map fun c =>
      if isWordChar c || isJsSpace c || c = '-' || c = '\'' then c else ' ')

/-- QueryRouter.countMatches (lines 175-184): sum over the keyword list of
the boundary-delimited occurrence counts. -/
def countMatches (query : List Char) (keywords : List String) : ℕ :=
  (keywords.map fun kw => countKw kw.data query).sum

/-- QueryRouter.calculateScore (lines 186-192):
`min(matches / sqrt(totalKeywords), 1.0) * weight`.  JS floats are idealised
as reals; `Math.sqrt` forces `ℝ` here. -/
noncomputable def calculateScore (matchCount totalKeywords : ℕ) (weight : ℝ) : ℝ :=
  if totalKeywords = 0 then 0
  else min ((matchCount : ℝ) / Real.sqrt (totalKeywords : ℝ)) 1.0 * weight

/-- config.legalConfidenceThreshold. -/
def legalConfidenceThreshold : ℝ := 0.1

/-- config.regionalConfidenceThreshold. -/
def regionalConfidenceThreshold : ℝ := 0.3

/-- The region-name → code map of QueryRouter.extractRegion (lines 294-315),
in source order (the first textual match wins). -/
def regionMap : List (String × String) :=
  [("lombardia", "LOM"), ("lazio", "LAZ"), ("veneto", "VEN"),
   ("piemonte", "PIE"), ("campania", "CAM"), ("sicilia", "SIC"),
   ("emilia romagna", "EMR"), ("toscana", "TOS"), ("puglia", "PUG"),
   ("calabria", "CAL"), ("sardegna", "SAR"), ("liguria", "LIG"),
   ("marche", "MAR"), ("abruzzo", "ABR"), ("umbria", "UMB"),
   ("basilicata", "BAS"), ("molise", "MOL"), ("friuli", "FRI"),
   ("trentino", "TRE"), ("valle aosta", "VDA")]

/-- QueryRouter.extractRegion (lines 292-325): the first region whose name
is a substring of the (normalized) query. -/
def extractRegion (query : List Char) : Option String :=
  (regionMap.find? fun p => containsSub query p.1.data).map (fun p => p.2)

/-- The `query_analysis` record attached by QueryRouter.classifyQuery
(lines 140-148). -/
structure QueryAnalysis where
  legal_matches : ℕ
  regional_matches : ℕ
  urban_matches : ℕ
  extracted_region : Option String
  normalized_query : List Char
  deriving Repr, DecidableEq

/-- A QueryClassification as built by QueryRouter.determineStrategy
(lines 194-290), plus the `query_analysis` added by classifyQuery.  The
`filters` object holds at most a `region` key, modelled as an `Option`. -/
structure Classification where
  strategy : String
  namespaces : List String
  weights : List (String × ℚ)
  filters_region : Option String
  needsLegalDisclaimer : Bool
  confidence : ℝ
  reasoning : String
  query_analysis : Option QueryAnalysis := none

/-- QueryRouter.determineStrategy (lines 194-290): the six-branch decision
table, evaluated in source order.  Every branch routes to the single
default namespace `''` with weight map `{'': 1.0}`. -/
noncomputable def determineStrategy (legal regional urban : ℝ)
    (normalizedQuery : List Char) : Classification :=
  let extractedRegion := extractRegion normalizedQuery
  if legalConfidenceThreshold ≤ legal ∧ regionalConfidenceThreshold ≤ regional
      ∧ (0.2 : ℝ) < urban then
    { strategy := "comprehensive", namespaces := [""], weights := [("", 1.0)],
      filters_region := extractedRegion, needsLegalDisclaimer := true,
      confidence := max legal (max regional urban),
      reasoning := "Query contains legal, regional, and urban planning elements" }
  else if legalConfidenceThreshold ≤ legal ∧ (0.2 : ℝ) < urban then
    { strategy := "legal-urban", namespaces := [""], weights := [("", 1.0)],
      filters_region := none, needsLegalDisclaimer := true,
      confidence := max legal urban,
      reasoning := "Query combines legal and urban planning aspects" }
  else if regionalConfidenceThreshold ≤ regional then
    { strategy := "regional-focus", namespaces := [""], weights := [("", 1.0)],
      filters_region := extractedRegion, needsLegalDisclaimer := true,
      confidence := regional,
      reasoning := "Query focuses on regional legislation" }
  else if legalConfidenceThreshold ≤ legal then
    { strategy := "legal-only", namespaces := [""], weights := [("", 1.0)],
      filters_region := none, needsLegalDisclaimer := true,
      confidence := legal,
      reasoning := "Query is primarily legal in nature" }
  else if (0.4 : ℝ) < urban ∧ (0.1 : ℝ) < legal then
    { strategy := "urban-legal-light", namespaces := [""], weights := [("", 1.0)],
      filters_region := none, needsLegalDisclaimer := true,
      confidence := urban,
      reasoning := "Urban planning query with light legal context" }
  else
    { strategy := "urban-only", namespaces := [""], weights := [("", 1.0)],
      filters_region := none, needsLegalDisclaimer := false,
      confidence := max urban 0.5,
      reasoning := "Query appears to be pure urban planning" }

/-- QueryRouter.classifyQuery (lines 115-154): normalize, count matches per
category, score, decide the strategy, attach the analysis record. -/
noncomputable def classifyQuery (query : String) : Classification :=
  let normalizedQuery := normalizeQuery query.data
  let legalMatches := countMatches normalizedQuery legalKeywords
  let regionalMatches := countMatches normalizedQuery regionalKeywords
  let urbanMatches := countMatches normalizedQuery urbanKeywords
  let legalScore := calculateScore legalMatches legalKeywords.length 1.0
  let regionalScore := calculateScore regionalMatches regionalKeywords.length 0.8
  let urbanScore := calculateScore urbanMatches urbanKeywords.length 0.9
  let c := determineStrategy legalScore regionalScore urbanScore normalizedQuery
  let qa : QueryAnalysis :=
    { legal_matches := legalMatches, regional_matches := regionalMatches,
      urban_matches := urbanMatches,
      extracted_region := extractRegion normalizedQuery,
      normalized_query := normalizedQuery }
  { c with query_analysis := some qa }

/-! ## Legal chunker (src/processors/chunker.js, class LegalChunker)

The default configuration is used throughout: `minChunkSize 800`,
`maxChunkSize 1200`, `overlapSize 200`, `tokenRatio 4`.  Document text is a
`List Char`.  A parsed document's `articles` field may be absent
(`Option`), which is what makes `chunkDocument` able to throw; field reads
that can hit `undefined` are modelled in `Except String`.  Chunk metadata
that no claim mentions (doc title/number/date/status, topics, the extracted
cross-references) is omitted from the `Chunk` record. -/

/-- JS `s || d` on a string: the empty string is falsy. -/
def jsOrS (s d : String) : String := if s = "" then d else s

/-- config.minChunkSize (tokens). -/
def minChunkSize : ℕ := 800

/-- config.maxChunkSize (tokens). -/
def maxChunkSize : ℕ := 1200

/-- config.overlapSize (tokens). -/
def overlapSize : ℕ := 200

/-- this.tokenRatio: ≈ 4 characters per token for Italian text. -/
def tokenRatio : ℕ := 4

/-- LegalChunker.estimateTokens (lines 520-523):
`Math.ceil(text.length / 4)`, with 0 for a falsy (empty) text. -/
def estimateTokens (text : List Char) : ℕ :=
  if text.isEmpty then 0 else (text.length + (tokenRatio - 1)) / tokenRatio

/-- Document metadata as the parser produces it (legal_parser.js,
`extractDocumentMetadata`); absent fields and empty strings coincide under
the `||` defaults the chunker applies, so plain strings suffice. -/
structure DocMetadata where
  source : String := ""
  title : String := ""
  number : String := ""
  type : String := ""
  date : String := ""
  status : String := ""
  authority : String := ""
  topics : List String := []
  deriving Repr, DecidableEq

/-- A comma (numbered sub-paragraph) from the parser. -/
structure Comma where
  number : String
  content : String
  deriving Repr, DecidableEq

/-- An article from the parser. -/
structure Article where
  number : String
  title : String
  content : String
  commas : List Comma
  deriving Repr, DecidableEq

/-- A parsed document as fed to `chunkDocument` and `extractMetadata`.
`articles` is optional: the chunker reads `parsedDocument.articles.length`
unconditionally at line 65, which throws when the field is absent. -/
structure ParsedDocument where
  metadata : DocMetadata
  articles : Option (List Article)
  fullText : String
  deriving Repr, DecidableEq

/-- `parsedDocument.textLength` as set by the parser. -/
def textLength (doc : ParsedDocument) : ℕ := doc.fullText.length

/-- The hierarchy object passed to `createChunk`; keys the call sites do
not set are absent (`none`), and JS truthiness also treats an empty string
as unset. -/
structure Hierarchy where
  article : Option String := none
  articleTitle : Option String := none
  comma : Option String := none
  letter : Option String := none
  deriving Repr, DecidableEq

/-- JS truthiness of an optional string field. -/
def truthyS : Option String → Bool
  | some s => !s.isEmpty
  | none => false

/-- LegalChunker.generateDocumentId (lines 398-402):
`${metadata.source || 'unknown'}_${(metadata.type || 'doc').toLowerCase()}_${(metadata.number || '').replace(/[\/\s]/g, '_')}`. -/
def generateDocumentId (metadata : DocMetadata) : String :=
  let type := jsToLower (jsOrS metadata.type "doc")
  let number := String.mk (metadata.number.data.map fun c =>
    if c = '/' || isJsSpace c then '_' else c)
  jsOrS metadata.source "unknown" ++ "_" ++ type ++ "_" ++ number

/-- LegalChunker.generateChunkId (lines 384-396): document id, then
`_art<n>` and `_comma<n>` for the truthy hierarchy levels, then
`_chunk<position>`. -/
def generateChunkId (metadata : DocMetadata) (hierarchy : Hierarchy)
    (position : ℕ) : String :=
  let docId := generateDocumentId metadata
  let hierarchyPart :=
    (match hierarchy.article with
     | some a => if a.isEmpty then "" else "_art" ++ a
     | none => "") ++
    (match hierarchy.comma with
     | some c => if c.isEmpty then "" else "_comma" ++ c
     | none => "")
  docId ++ hierarchyPart ++ "_chunk" ++ toString position

/-- LegalChunker.buildHierarchyArray (lines 404-418). -/
def buildHierarchyArray (hierarchy : Hierarchy) : List String :=
  ["documento"]
    ++ (if truthyS hierarchy.article then ["articolo"] else [])
    ++ (if truthyS hierarchy.comma then ["comma"] else [])
    ++ (if truthyS hierarchy.letter then ["lettera"] else [])

/-- LegalChunker.calculateOverlap (lines 444-447). -/
def calculateOverlap (position : ℕ) : ℕ :=
  if 0 < position then overlapSize else 0

/-- LegalChunker.calculateQualityScore (lines 449-469). -/
def calculateQualityScore (text : List Char) (hierarchy : Hierarchy)
    (ctxType : String) : ℤ :=
  let score : ℤ := 50
  let score := if truthyS hierarchy.article then score + 20 else score
  let score := if truthyS hierarchy.comma then score + 10 else score
  let tokens := estimateTokens text
  let score := if minChunkSize ≤ tokens ∧ tokens ≤ maxChunkSize then score + 15 else score
  let score := if ctxType = "complete_article" then score + 10 else score
  let score := if ctxType = "force_split" then score - 20 else score
  max 0 (min 100 score)

/-- A chunk as built by LegalChunker.createChunk (lines 349-382),
restricted to the fields some claim reads. -/
structure Chunk where
  chunk_id : String
  text : List Char
  tokens : ℕ
  position_in_doc : ℕ
  doc_id : String
  chunk_type : String
  hierarchy_path : List String
  hier : Hierarchy
  overlap_with_previous : ℕ
  quality_score : ℤ
  deriving Repr, DecidableEq

/-- LegalChunker.createChunk (lines 349-382).  The stored text is trimmed
but the token estimate is taken on the text as passed (source order:
`tokens` is computed before `text.trim()` is stored).  Every call site
passes a `context.type`, so the `|| 'text'` default never fires. -/
def createChunk (text : List Char) (metadata : DocMetadata) (position : ℕ)
    (hierarchy : Hierarchy) (ctxType : String) : Chunk :=
  { chunk_id := generateChunkId metadata hierarchy position,
    text := jsTrim text,
    tokens := estimateTokens text,
    position_in_doc := position,
    doc_id := generateDocumentId metadata,
    chunk_type := ctxType,
    hierarchy_path := buildHierarchyArray hierarchy,
    hier := hierarchy,
    overlap_with_previous := calculateOverlap position,
    quality_score := calculateQualityScore text hierarchy ctxType }

/-- Lookahead body of the separator `/(?=Art\.|Articolo\s*\d+)/g`:
after the literal, a maximal whitespace run must be followed by a digit
(inner backtracking cannot help, since a digit is never whitespace). -/
def articleLookahead (s : List Char) : Bool :=
  "Art.".data.isPrefixOf s ||
  ("Articolo".data.isPrefixOf s &&
    (match ((s.drop 8).dropWhile isJsSpace).head? with
     | some c => c.isDigit
     | none => false))

/-- Lookahead body of `/(?=Comma\s*\d+|^\d+\.)/gm` at a position whose
preceding character is `prev` (`^` in multiline mode holds at the start of
the string or right after a newline). -/
def commaLookahead (prev : Option Char) (s : List Char) : Bool :=
  ("Comma".data.isPrefixOf s &&
    (match ((s.drop 5).dropWhile isJsSpace).head? with
     | some c => c.isDigit
     | none => false)) ||
  ((match prev with | none => true | some c => c = '\n') &&
    (let ds := s.takeWhile Char.isDigit
     decide (0 < ds.length) && ((s.drop ds.length).head? == some '.')))

/-- After a maximal whitespace run, a lower-case letter followed by `)`. -/
def wsThenLowerParen (s : List Char) : Bool :=
  match s.dropWhile isJsSpace with
  | a :: b :: _ => a.isLower && b = ')'
  | _ => false

/-- Lookahead body of `/(?=lett\.\s*[a-z]\)|lettera\s*[a-z]\))/g`. -/
def letterLookahead (s : List Char) : Bool :=
  ("lett.".data.isPrefixOf s && wsThenLowerParen (s.drop 5)) ||
  ("lettera".data.isPrefixOf s && wsThenLowerParen (s.drop 7))

/-- Match length of `/\n\s*\n/` at the head of `s` (greedy `\s*` with
backtracking: the match ends at the last newline inside the maximal
whitespace run after the first newline). -/
def paragraphMatchLen (s : List Char) : Option ℕ :=
  match s with
  | '\n' :: rest =>
      let run := rest.takeWhile isJsSpace
      (run.reverse.findIdx? fun c => c = '\n').map fun k =>
        (run.length - 1 - k) + 2
  | _ => none

/-- Match length of `/\.\s+(?=[A-Z])/` at the head of `s`: a maximal
whitespace run of length ≥ 1 whose end is followed by an upper-case letter
(backtracking cannot stop earlier: the run's characters are not
upper-case). -/
def sentenceMatchLen (s : List Char) : Option ℕ :=
  match s with
  | '.' :: rest =>
      let run := rest.takeWhile isJsSpace
      if 0 < run.length &&
          (match (rest.drop run.length).head? with
           | some c => c.isUpper
           | none => false) then some (run.length + 1) else none
  | _ => none

/-- Match length of `/;\s+/` or `/,\s+/` (parameterised by the leading
punctuation character) at the head of `s`. -/
def punctRunMatchLen (c0 : Char) (s : List Char) : Option ℕ :=
  match s with
  | c :: rest =>
      if c = c0 then
        let run := rest.takeWhile isJsSpace
        if 0 < run.length then some (run.length + 1) else none
      else none
  | _ => none

/-- Positions of a zero-width (lookahead) separator, as
`[...text.matchAll(pattern)]` enumerates them: every index whose suffix
satisfies the lookahead (an empty match advances `lastIndex` by one). -/
def positionsZW (p : Option Char → List Char → Bool) (text : List Char) :
    List ℕ :=
  (List.range text.length).filter fun i =>
    p (if i = 0 then none else text.get? (i - 1)) (text.drop i)

/-- Positions of a consuming separator, as `matchAll` enumerates them:
non-overlapping, left to right, each match advancing past its own
length. -/
def positionsNOGo (matchLen : List Char → Option ℕ) :
    ℕ → ℕ → List Char → List ℕ
  | 0, _, _ => []
  | _ + 1, _, [] => []
  | fuel + 1, i, c :: rest =>
      match matchLen (c :: rest) with
      | some n => i :: positionsNOGo matchLen fuel (i + max n 1) ((c :: rest).drop (max n 1))
      | none => positionsNOGo matchLen fuel (i + 1) rest

/-- All match positions of a consuming separator in `text`. -/
def positionsNO (matchLen : List Char → Option ℕ) (text : List Char) :
    List ℕ :=
  positionsNOGo matchLen (text.length + 1) 0 text

/-- config.separators (lines 13-21), already in descending priority order
(10, 8, 6, 4, 3, 2, 1), which is the order the sorted loop in
`splitTextBySeparators` visits them in. -/
def separators : List (String × (List Char → List ℕ)) :=
  [("article", positionsZW fun _ s => articleLookahead s),
   ("comma", positionsZW commaLookahead),
   ("letter", positionsZW fun _ s => letterLookahead s),
   ("paragraph", positionsNO paragraphMatchLen),
   ("sentence", positionsNO sentenceMatchLen),
   ("semicolon", positionsNO (punctRunMatchLen ';')),
   ("comma_punct", positionsNO (punctRunMatchLen ','))]

/-- The split-candidate search inside LegalChunker.splitTextBySeparators
(lines 257-281): the first separator (in priority order) that has a match
at a position `> 0` whose prefix token count lies in `[min, max]` wins,
with its first such position (a later separator can never displace an
earlier one, since the update requires a strictly greater priority). -/
def bestSplit (remainingText : List Char) : Option (ℕ × String) :=
  separators.findSome? fun sep =>
    ((sep.2 remainingText).find? fun p =>
        decide (0 < p) &&
        decide (minChunkSize ≤ estimateTokens (remainingText.take p)) &&
        decide (estimateTokens (remainingText.take p) ≤ maxChunkSize)).map
      fun p => (p, sep.1)

/-- `chunkText.lastIndexOf(' ')`: `none` models JS `-1`. -/
def lastIndexOfSpace (s : List Char) : Option ℕ :=
  (s.reverse.findIdx? fun c => c = ' ').map fun k => s.length - 1 - k

/-- One text segment produced by `splitTextBySeparators`. -/
structure Segment where
  text : List Char
  tokens : ℕ
  separatorUsed : String
  deriving Repr, DecidableEq

/-- The `while (remainingText.length > 0)` loop of
LegalChunker.splitTextBySeparators (lines 245-312).  Each iteration
consumes at least one character, so fuel `length + 1` suffices. -/
def splitTextGo : ℕ → List Char → List Segment
  | 0, _ => []
  | _ + 1, [] => []
  | fuel + 1, remainingText =>
      match bestSplit remainingText with
      | some pn =>
          let beforeSplit := remainingText.take pn.1
          { text := jsTrim beforeSplit, tokens := estimateTokens beforeSplit,
            separatorUsed := pn.2 } ::
            splitTextGo fuel (jsTrim (remainingText.drop pn.1))
      | none =>
          let maxChars := maxChunkSize * tokenRatio
          let chunkText := remainingText.take maxChars
          let actualChunk :=
            match lastIndexOfSpace chunkText with
            | some lastSpace => if 0 < lastSpace then chunkText.take lastSpace else chunkText
            | none => chunkText
          { text := jsTrim actualChunk, tokens := estimateTokens actualChunk,
            separatorUsed := "force_split" } ::
            splitTextGo fuel (jsTrim (remainingText.drop actualChunk.length))

/-- LegalChunker.splitTextBySeparators (lines 245-312). -/
def splitTextBySeparators (text : List Char) : List Segment :=
  splitTextGo (text.length + 1) text

/-- The `for (let i = 0; i < text.length; i += maxChars)` loop of
LegalChunker.forceSplitText (lines 314-347).  When a window is not the last
one and its last space sits beyond 80% of the window, the window is cut at
that space — but the next window still starts at `i + maxChars` (as in the
source). -/
def forceSplitGo (metadata : DocMetadata) (hierarchy : Hierarchy)
    (text : List Char) : ℕ → ℕ → ℕ → List Chunk
  | 0, _, _ => []
  | fuel + 1, i, position =>
      if text.length ≤ i then []
      else
        let maxChars := maxChunkSize * tokenRatio
        let window := (text.drop i).take maxChars
        let chunkText :=
          if i + maxChars < text.length then
            match lastIndexOfSpace window with
            | some lastSpace =>
                if 8 * maxChars < 10 * lastSpace then window.take lastSpace else window
            | none => window
          else window
        createChunk (jsTrim chunkText) metadata position hierarchy "force_split" ::
          forceSplitGo metadata hierarchy text fuel (i + maxChars) (position + 1)

/-- LegalChunker.forceSplitText (lines 314-347). -/
def forceSplitText (text : List Char) (metadata : DocMetadata)
    (hierarchy : Hierarchy) (startPosition : ℕ) : List Chunk :=
  forceSplitGo metadata hierarchy text (text.length + 1) 0 startPosition

/-- The segment-accumulation loop of LegalChunker.chunkText
(lines 189-241), including the final-chunk flush. -/
def chunkTextLoop (metadata : DocMetadata) (hierarchy : Hierarchy) :
    List Segment → List Char → ℕ → List Chunk
  | [], currentChunk, position =>
      if currentChunk.isEmpty then []
      else [createChunk currentChunk metadata position hierarchy "final_segment"]
  | seg :: rest, currentChunk, position =>
      let potentialChunk :=
        currentChunk ++ (if currentChunk.isEmpty then [] else [' ']) ++ seg.text
      if estimateTokens potentialChunk ≤ maxChunkSize then
        chunkTextLoop metadata hierarchy rest potentialChunk position
      else
        let flushed :=
          if currentChunk.isEmpty then ([] : List Chunk)
          else [createChunk currentChunk metadata position hierarchy "text_segment"]
        let position := position + flushed.length
        if maxChunkSize < estimateTokens seg.text then
          let forceChunks := forceSplitText seg.text metadata hierarchy position
          flushed ++ forceChunks ++
            chunkTextLoop metadata hierarchy rest [] (position + forceChunks.length)
        else
          flushed ++ chunkTextLoop metadata hierarchy rest seg.text position

/-- LegalChunker.chunkText (lines 181-243). -/
def chunkText (text : List Char) (metadata : DocMetadata)
    (hierarchy : Hierarchy) (startPosition : ℕ) : List Chunk :=
  chunkTextLoop metadata hierarchy (splitTextBySeparators text) [] startPosition

/-- The comma loop of LegalChunker.chunkLargeArticle (lines 115-152). -/
def commasLoop (article : Article) (documentMetadata : DocMetadata) :
    List Comma → ℕ → List Chunk
  | [], _ => []
  | comma :: rest, position =>
      let hierarchy : Hierarchy :=
        { article := some article.number, articleTitle := some article.title,
          comma := some comma.number }
      if estimateTokens comma.content.data ≤ maxChunkSize then
        createChunk comma.content.data documentMetadata position hierarchy "article_comma" ::
          commasLoop article documentMetadata rest (position + 1)
      else
        let commaChunks := chunkText comma.content.data documentMetadata hierarchy position
        commaChunks ++ commasLoop article documentMetadata rest (position + commaChunks.length)

/-- LegalChunker.chunkLargeArticle (lines 108-168). -/
def chunkLargeArticle (article : Article) (documentMetadata : DocMetadata)
    (startPosition : ℕ) : List Chunk :=
  if 1 < article.commas.length then
    commasLoop article documentMetadata article.commas startPosition
  else
    chunkText article.content.data documentMetadata
      { article := some article.number, articleTitle := some article.title }
      startPosition

/-- The article loop of LegalChunker.chunkByArticles (lines 70-106). -/
def chunkByArticlesGo (metadata : DocMetadata) :
    List Article → ℕ → List Chunk
  | [], _ => []
  | article :: rest, globalPosition =>
      if estimateTokens article.content.data ≤ maxChunkSize then
        createChunk article.content.data metadata globalPosition
            { article := some article.number, articleTitle := some article.title }
            "complete_article" ::
          chunkByArticlesGo metadata rest (globalPosition + 1)
      else
        let articleChunks := chunkLargeArticle article metadata globalPosition
        articleChunks ++ chunkByArticlesGo metadata rest (globalPosition + articleChunks.length)

/-- LegalChunker.chunkByArticles (lines 70-106). -/
def chunkByArticles (metadata : DocMetadata) (articles : List Article) :
    List Chunk :=
  chunkByArticlesGo metadata articles 0

/-- LegalChunker.chunkByStructure (lines 170-179). -/
def chunkByStructure (parsedDocument : ParsedDocument) : List Chunk :=
  chunkText parsedDocument.fullText.data parsedDocument.metadata {} 0

/-- First index of the two-character substring `. ` (JS
`overlapText.indexOf('. ')`), or `none` for `-1`. -/
def indexOfDotSpace (s : List Char) : Option ℕ :=
  (List.range s.length).find? fun i => ". ".data.isPrefixOf (s.drop i)

/-- LegalChunker.extractOverlapText (lines 502-518).  The comparison
`sentenceStart < overlapChars * 0.3` is exact on integers (written
`10 * sentenceStart < 3 * overlapChars`). -/
def extractOverlapText (previousText : List Char) (overlapTokens : ℕ) :
    List Char :=
  let overlapChars := overlapTokens * tokenRatio
  if previousText.length ≤ overlapChars then previousText
  else
    let overlapText := previousText.drop (previousText.length - overlapChars)
    match indexOfDotSpace overlapText with
    | some sentenceStart =>
        if 0 < sentenceStart ∧ 10 * sentenceStart < 3 * overlapChars then
          overlapText.drop (sentenceStart + 2)
        else overlapText
    | none => overlapText

/-- The overlap-prepending map of LegalChunker.postProcessChunks
(lines 475-487).  The JS `map` mutates the chunk objects in place, so the
`chunks[index - 1]` it reads is the already-extended previous chunk; the
fold therefore threads the processed previous chunk. -/
def postProcessLoop : Option Chunk → List Chunk → List Chunk
  | _, [] => []
  | prev, chunk :: rest =>
      let chunk' :=
        match prev with
        | some prevChunk =>
            if 0 < chunk.overlap_with_previous then
              let overlapText := extractOverlapText prevChunk.text chunk.overlap_with_previous
              if overlapText.isEmpty then chunk
              else
                let newText := overlapText ++ [' '] ++ chunk.text
                { chunk with text := newText, tokens := estimateTokens newText }
            else chunk
        | none => chunk
      chunk' :: postProcessLoop (some chunk') rest

/-- LegalChunker.postProcessChunks (lines 471-500): overlap injection, then
the validity filter `text.length > 20 && tokens > 10`. -/
def postProcessChunks (chunks : List Chunk) : List Chunk :=
  (postProcessLoop none chunks).filter fun c =>
    decide (20 < c.text.length) && decide (10 < c.tokens)

/-- The statistics record of LegalChunker.calculateChunkingStats
(lines 525-543).  On an empty chunk list JS produces `NaN` for the averages
and `±Infinity` for `Math.min()`/`Math.max()` without throwing; those
non-finite values are modelled as `none`. -/
structure ChunkingStats where
  totalChunks : ℕ
  totalTokens : ℕ
  avgTokensPerChunk : Option ℤ
  minTokens : Option ℕ
  maxTokens : Option ℕ
  chunksInTargetRange : ℕ
  qualityAvg : Option ℤ
  qualityMin : Option ℤ
  qualityMax : Option ℤ
  deriving Repr, DecidableEq

/-- LegalChunker.calculateChunkingStats (lines 525-543). -/
def calculateChunkingStats (chunks : List Chunk) : ChunkingStats :=
  let tokenCounts := chunks.map Chunk.tokens
  let total := tokenCounts.sum
  { totalChunks := chunks.length,
    totalTokens := total,
    avgTokensPerChunk :=
      if chunks.isEmpty then none
      else some (jsRound ((total : ℚ) / (chunks.length : ℚ))),
    minTokens := tokenCounts.min?,
    maxTokens := tokenCounts.max?,
    chunksInTargetRange :=
      (chunks.filter fun c =>
        decide (minChunkSize ≤ c.tokens) && decide (c.tokens ≤ maxChunkSize)).length,
    qualityAvg :=
      if chunks.isEmpty then none
      else some (jsRound (((chunks.map Chunk.quality_score).sum : ℚ) / (chunks.length : ℚ))),
    qualityMin := (chunks.map Chunk.quality_score).min?,
    qualityMax := (chunks.map Chunk.quality_score).max? }

/-- The record returned by LegalChunker.chunkDocument. -/
structure ChunkResult where
  documentId : String
  chunks : List Chunk
  chunkingStrategy : String
  stats : ChunkingStats
  deriving Repr, DecidableEq

/-- LegalChunker.chunkDocument (lines 39-68).  Line 45 guards
`parsedDocument.articles && parsedDocument.articles.length > 0`, so a
missing `articles` field falls through to structure-based chunking — but
line 65 then reads `parsedDocument.articles.length` unconditionally, which
throws a `TypeError` when the field is absent.  The chunking work happens
before that read, exactly as in the source. -/
def chunkDocument (parsedDocument : ParsedDocument) : Except String ChunkResult :=
  let chunks :=
    match parsedDocument.articles with
    | some articles =>
        if 0 < articles.length then chunkByArticles parsedDocument.metadata articles
        else chunkByStructure parsedDocument
    | none => chunkByStructure parsedDocument
  let processedChunks := postProcessChunks chunks
  match parsedDocument.articles with
  | none => .error "TypeError: Cannot read properties of undefined (reading length)"
  | some articles =>
      .ok { documentId := generateDocumentId parsedDocument.metadata,
            chunks := processedChunks,
            chunkingStrategy :=
              if 0 < articles.length then "article-based" else "structure-based",
            stats := calculateChunkingStats processedChunks }

/-! ## Metadata extractor (src/processors/legal_parser.js, class
LegalMetadataExtractor)

`extractMetadata` and the per-document analyses it assembles.  The wall
clock read by `new Date().toISOString()` for `processing_info.extracted_at`
is an explicit `now` parameter.  Display-only strings (topic/type
descriptions) are omitted.  The generic scanners below follow the JS
regexes; where a regex could in principle backtrack, the comment on the
matcher argues why maximal munch is equivalent for that pattern. -/

/-- Generic non-overlapping scanner, as `[...text.matchAll(re)]`: at each
position try `matchAt` (returning consumed length and a capture); on a
match record `(index, matched text, capture)` and continue past it. -/
def scanGo (matchAt : List Char → Option (ℕ × α)) :
    ℕ → ℕ → List Char → List (ℕ × List Char × α)
  | 0, _, _ => []
  | _ + 1, _, [] => []
  | fuel + 1, i, c :: rest =>
      match matchAt (c :: rest) with
      | some la =>
          (i, (c :: rest).take la.1, la.2) ::
            scanGo matchAt fuel (i + max la.1 1) ((c :: rest).drop (max la.1 1))
      | none => scanGo matchAt fuel (i + 1) rest

/-- All non-overlapping matches of `matchAt` in `text`. -/
def scanAll (matchAt : List Char → Option (ℕ × α)) (text : List Char) :
    List (ℕ × List Char × α) :=
  scanGo matchAt (text.length + 1) 0 text

/-- Match a sequence of literal words joined by `\s+` (the shape
`keyword.replace(/\s+/g, '\\s+')` produces): each inter-word whitespace
run is maximal, which is equivalent to the greedy regex because no word
starts with a whitespace character. -/
def matchWordsAt : List (List Char) → List Char → Option ℕ
  | [], _ => some 0
  | [w], s => if w.isPrefixOf s then some w.length else none
  | w :: ws, s =>
      if w.isPrefixOf s then
        let rest := s.drop w.length
        let run := rest.takeWhile isJsSpace
        if run.isEmpty then none
        else (matchWordsAt ws (rest.drop run.length)).map fun n =>
          w.length + run.length + n
      else none

/-- Case-insensitive variant (for the `/gi` regexes that run over text that
was not lower-cased first): lower-case the text, match the (lower-case
stored) words; `Char.toLower` preserves positions and whitespace. -/
def matchWordsCIAt (words : List (List Char)) (s : List Char) : Option ℕ :=
  matchWordsAt words (toLowerList s)

/-- Count of non-overlapping matches of a `\s+`-joined keyword, as
`text.match(regex).length` counts them in `analyzeTopics`. -/
def countWordsPattern (words : List (List Char)) (text : List Char) : ℕ :=
  (scanAll (fun s => (matchWordsAt words s).map fun n => (n, ())) text).length

/-- The number capture `(\d+(?:\/\d+)?)`: a maximal digit run, optionally
followed by `/` and a second maximal digit run. -/
def numCapAt (s : List Char) : Option (ℕ × List Char) :=
  let ds := s.takeWhile Char.isDigit
  if ds.isEmpty then none
  else
    match s.drop ds.length with
    | '/' :: r2 =>
        let ds2 := r2.takeWhile Char.isDigit
        if ds2.isEmpty then some (ds.length, ds)
        else some (ds.length + 1 + ds2.length, ds ++ '/' :: ds2)
    | _ => some (ds.length, ds)

/-- One document-type pattern of `this.documentTypes` (lines 578-615):
`(?:ALT|...)\s*(?:n\.)?\s*(\d+(?:\/\d+)?)` where each alternative is a
`\s+`-joined word sequence and the optional `n\.` occurs only for
`regolamento`/`circolare`.  Alternatives are tried in source order; for
these alternative sets a committed alternative never needs to be undone
(no alternative is a viable prefix of another at the same start with a
different continuation outcome). -/
structure DocTypePattern where
  alts : List (List (List Char))
  optN : Bool
  deriving Repr, DecidableEq

/-- Match a document-type pattern at the head of `s` (already lower case):
consumed length and the captured number. -/
def matchDocTypeAt (p : DocTypePattern) (s : List Char) : Option (ℕ × List Char) :=
  (p.alts.findSome? fun alt => matchWordsAt alt s).bind fun altLen =>
    let rest := s.drop altLen
    let r1 := rest.takeWhile isJsSpace
    let rest1 := rest.drop r1.length
    let nLen :=
      if p.optN && "n.".data.isPrefixOf rest1 then
        2 + ((rest1.drop 2).takeWhile isJsSpace).length
      else 0
    (numCapAt (rest1.drop nLen)).map fun cap =>
      (altLen + r1.length + nLen + cap.1, cap.2)

/-- One entry of `this.documentTypes`; `pfx` is the table's `prefix` field
(the citation prefix). -/
structure DocTypeEntry where
  name : String
  pattern : DocTypePattern
  authority : String
  pfx : String
  deriving Repr, DecidableEq

/-- this.documentTypes (lines 578-615), with the pattern literals lower
case because `classifyDocument` matches them (case-insensitively) against
the lower-cased full text. -/
def documentTypes : List DocTypeEntry :=
  [⟨"legge", ⟨[["legge".data], ["l.".data]], false⟩, "Parlamento", "L"⟩,
   ⟨"decreto_legge", ⟨[["d.l.".data], ["decreto".data, "legge".data]], false⟩,
     "Governo", "DL"⟩,
   ⟨"decreto_legislativo",
     ⟨[["d.lgs.".data], ["decreto".data, "legislativo".data]], false⟩,
     "Governo", "DLgs"⟩,
   ⟨"decreto_presidente",
     ⟨[["dpr".data], ["d.p.r.".data], ["decreto".data, "del".data, "presidente".data]], false⟩,
     "Presidente della Repubblica", "DPR"⟩,
   ⟨"regolamento", ⟨[["regolamento".data]], true⟩, "Varie", "Reg"⟩,
   ⟨"circolare", ⟨[["circolare".data]], true⟩, "Ministero", "Circ"⟩]

/-- The classification record built by
LegalMetadataExtractor.classifyDocument (lines 730-771).
`secondary_types` is declared but never filled by the source, so it is
omitted. -/
structure DocClassification where
  primary_type : String
  confidence : ℕ
  detected_patterns : List (List Char)
  authority : Option String
  formal_citation : Option String
  deriving Repr, DecidableEq

/-- LegalMetadataExtractor.classifyDocument (lines 730-771): per type,
count the pattern's matches in the lower-cased full text; score =
`10 × count` plus a 20-point bonus when the type agrees with the parser's
hint; the strictly best score wins (first type on ties, in table order);
confidence is capped at 95.  The citation number is the first match's
capture. -/
def classifyDocument (parsedDocument : ParsedDocument) : DocClassification :=
  let text := toLowerList parsedDocument.fullText.data
  let step : Option (ℕ × DocTypeEntry × List (List Char × List Char)) → DocTypeEntry →
      Option (ℕ × DocTypeEntry × List (List Char × List Char)) := fun best entry =>
    let ms := (scanAll (matchDocTypeAt entry.pattern) text).map fun m => (m.2.1, m.2.2)
    if ms.isEmpty then best
    else
      let score := ms.length * 10 +
        (if entry.name = parsedDocument.metadata.type then 20 else 0)
      match best with
      | some b => if b.1 < score then some (score, entry, ms) else best
      | none => some (score, entry, ms)
  match documentTypes.foldl step none with
  | some b =>
      { primary_type := b.2.1.name,
        confidence := min 95 b.1,
        detected_patterns := b.2.2.map fun m => m.1,
        authority := some b.2.1.authority,
        formal_citation := some (b.2.1.pfx ++ " " ++
          String.mk (((b.2.2.head?).map fun m => m.2).getD [])) }
  | none =>
      { primary_type := "unknown", confidence := 0, detected_patterns := [],
        authority := none, formal_citation := none }

/-- One topic entry of `this.urbanisticTopics` (lines 618-659). -/
structure TopicEntry where
  name : String
  keywords : List String
  weight : ℕ
  deriving Repr, DecidableEq

/-- this.urbanisticTopics (lines 618-659). -/
def urbanisticTopics : List TopicEntry :=
  [⟨"pianificazione",
    ["piano regolatore", "prg", "pgt", "put", "pianificazione", "zonizzazione",
     "destinazione urbanistica"], 10⟩,
   ⟨"edilizia",
    ["permesso di costruire", "scia", "cila", "dia", "edilizia libera",
     "costruzione", "edificio"], 10⟩,
   ⟨"vincoli",
    ["vincolo paesaggistico", "beni culturali", "tutela", "soprintendenza",
     "autorizzazione paesaggistica"], 8⟩,
   ⟨"esproprio",
    ["esproprio", "espropriazione", "pubblica utilità", "indennità"], 7⟩,
   ⟨"ambiente",
    ["ambiente", "impatto ambientale", "via", "vas", "sostenibilità"], 6⟩,
   ⟨"standard",
    ["standard urbanistici", "servizi pubblici", "verde pubblico", "parcheggi"], 6⟩,
   ⟨"abuso", ["abuso edilizio", "demolizione", "sanatoria", "condono"], 8⟩,
   ⟨"procedimento",
    ["procedimento amministrativo", "autorizzazione", "conferenza servizi",
     "silenzio assenso"], 5⟩]

/-- The words of a topic keyword, as `keyword.replace(/\s+/g, '\\s+')`
splits it. -/
def keywordWords (kw : String) : List (List Char) :=
  (kw.splitOn " ").map String.data

/-- One scored topic of `analyzeTopics`. -/
structure TopicScore where
  topic : String
  score : ℕ
  found_keywords : List (String × ℕ)
  deriving Repr, DecidableEq

/-- The analysis record of LegalMetadataExtractor.analyzeTopics
(lines 773-829). -/
structure TopicAnalysis where
  primary_topics : List (String × ℕ)
  secondary_topics : List (String × ℕ)
  topic_scores : List TopicScore
  urbanistic_relevance : ℕ
  deriving Repr, DecidableEq

/-- Descending-score order on topic entries (the JS sort comparator
`b.score - a.score`, stable). -/
def topicDescLE (a b : TopicScore) : Prop := b.score ≤ a.score

instance : DecidableRel topicDescLE := fun a b =>
  inferInstanceAs (Decidable (b.score ≤ a.score))

/-- LegalMetadataExtractor.analyzeTopics (lines 773-829): per topic, sum
`count × weight` over its keywords on the lower-cased full text; keep the
topics with positive score (in table order), sort them descending, take the
top 3 as primary and the next 3 as secondary; the urbanistic relevance is
`min(100, round(total / 10))`. -/
def analyzeTopics (parsedDocument : ParsedDocument) : TopicAnalysis :=
  let text := toLowerList parsedDocument.fullText.data
  let scores := urbanisticTopics.filterMap fun entry =>
    let found := entry.keywords.filterMap fun kw =>
      let n := countWordsPattern (keywordWords kw) text
      if 0 < n then some (kw, n) else none
    let score : ℕ := (found.map fun f => f.2 * entry.weight).sum
    if 0 < score then some ⟨entry.name, score, found⟩ else none
  let sorted := scores.insertionSort topicDescLE
  let total := (scores.map TopicScore.score).sum
  { primary_topics := (sorted.take 3).map fun t => (t.topic, t.score),
    secondary_topics := ((sorted.drop 3).take 3).map fun t => (t.topic, t.score),
    topic_scores := scores,
    urbanistic_relevance := min 100 (jsRound ((total : ℚ) / 10)).toNat }

/-- this.statusKeywords (lines 662-668). -/
def statusKeywords : List (String × List String) :=
  [("vigente", ["vigente", "in vigore", "efficace"]),
   ("abrogato", ["abrogato", "abrogata", "cessato", "non più vigente"]),
   ("modificato", ["modificato", "modificata", "come modificato", "novellato"]),
   ("sospeso", ["sospeso", "sospesa", "temporaneamente sospeso"]),
   ("decaduto", ["decaduto", "decaduta", "scaduto"])]

/-- Match, at the head of `s`, the modification pattern
`/(?:modificato|sostituito|integrato)\s+(?:da|dall['])\s*([^.]+)/` (the
source's bracket class holds two plain apostrophes).  The alternative `da`
is tried before `dall'` and its continuation `\s*([^.]+)` succeeds
whenever at least one non-dot character follows, exactly as in JS. -/
def matchModificationAt (s : List Char) : Option (ℕ × List Char) :=
  (["modificato".data, "sostituito".data, "integrato".data].findSome? fun w =>
      if w.isPrefixOf s then some w.length else none).bind fun wLen =>
    let rest := s.drop wLen
    let run := rest.takeWhile isJsSpace
    if run.isEmpty then none
    else
      let rest1 := rest.drop run.length
      (if "da".data.isPrefixOf rest1 then some 2
       else if "dall\'".data.isPrefixOf rest1 then some 5
       else none).bind fun daLen =>
        let rest2 := rest1.drop daLen
        let r2 := rest2.takeWhile isJsSpace
        let cap := (rest2.drop r2.length).takeWhile fun c => c != '.'
        if cap.isEmpty then none
        else some (wLen + run.length + daLen + r2.length + cap.length, cap)

/-- Match, at the head of `s`, the second modification pattern
`/(?:come\s+modificato\s+da)\s*([^.]+)/`. -/
def matchComeModificatoAt (s : List Char) : Option (ℕ × List Char) :=
  (matchWordsAt ["come".data, "modificato".data, "da".data] s).bind fun wLen =>
    let rest := s.drop wLen
    let r2 := rest.takeWhile isJsSpace
    let cap := (rest.drop r2.length).takeWhile fun c => c != '.'
    if cap.isEmpty then none
    else some (wLen + r2.length + cap.length, cap)

/-- The analysis record of LegalMetadataExtractor.analyzeStatus
(lines 831-878): the captured modification descriptions are stored
trimmed. -/
structure StatusAnalysis where
  current_status : String
  confidence : ℕ
  status_indicators : List (String × String)
  modification_history : List (List Char)
  deriving Repr, DecidableEq

/-- LegalMetadataExtractor.analyzeStatus (lines 831-878): scan the status
keyword table in order over the lower-cased text; every hit is recorded,
and every non-`vigente` hit overwrites the current status (confidence 80),
so the last such status in table order wins. -/
def analyzeStatus (parsedDocument : ParsedDocument) : StatusAnalysis :=
  let text := toLowerList parsedDocument.fullText.data
  let inner : (String × ℕ) × List (String × String) → String × List String →
      (String × ℕ) × List (String × String) := fun acc entry =>
    entry.2.foldl (fun acc2 kw =>
      if containsSub text kw.data then
        ((if entry.1 ≠ "vigente" then (entry.1, 80) else acc2.1),
         acc2.2 ++ [(entry.1, kw)])
      else acc2) acc
  let step := statusKeywords.foldl inner (("vigente", 50), ([] : List (String × String)))
  let mods :=
    (scanAll matchModificationAt text).map (fun m => jsTrim m.2.2) ++
    (scanAll matchComeModificatoAt text).map (fun m => jsTrim m.2.2)
  { current_status := step.1.1, confidence := step.1.2,
    status_indicators := step.2, modification_history := mods }

/-- The analysis record of LegalMetadataExtractor.analyzeStructure
(lines 880-926). -/
structure StructureAnalysis where
  total_articles : ℕ
  with_commas : ℕ
  avg_commas_per_article : ℚ
  structural_complexity : String
  has_annexes : Bool
  hierarchical_depth : ℕ
  deriving Repr, DecidableEq

/-- LegalMetadataExtractor.analyzeStructure (lines 880-926).
`with_commas` counts the distinct comma-counts `> 0` (the JS filters the
keys of the distribution object). -/
def analyzeStructure (parsedDocument : ParsedDocument) : StructureAnalysis :=
  let articles := parsedDocument.articles.getD []
  let counts := articles.map fun a => a.commas.length
  let total := articles.length
  let text := toLowerList parsedDocument.fullText.data
  { total_articles := total,
    with_commas := (counts.dedup.filter fun k => decide (0 < k)).length,
    avg_commas_per_article :=
      if 0 < total then ((counts.sum : ℚ) / (total : ℚ)) else 0,
    structural_complexity :=
      if 100 < total then "very_complex"
      else if 50 < total then "complex"
      else if 20 < total then "moderate"
      else "simple",
    has_annexes :=
      containsSub text "allegato".data || containsSub text "tabella".data ||
        containsSub text "schema".data,
    hierarchical_depth := if counts.any fun k => decide (5 < k) then 2 else 1 }

/-- The capture tail of a cross-reference pattern. -/
inductive RefTail
  | noCap
  | digitsOnly
  | digitsSlash
  | letterParen
  deriving Repr, DecidableEq

/-- One cross-reference pattern of `this.referencePatterns`
(lines 671-681): alternatives of `\s+`-joined words, then `\s*` and the
capture tail (absent for the bare keyword patterns). -/
structure RefPattern where
  name : String
  alts : List (List (List Char))
  tail : RefTail
  deriving Repr, DecidableEq

/-- this.referencePatterns (lines 671-681), literals lower case (all are
`/gi`). -/
def referencePatterns : List RefPattern :=
  [⟨"internal_article", [["art.".data], ["articolo".data]], .digitsOnly⟩,
   ⟨"internal_comma", [["comma".data]], .digitsOnly⟩,
   ⟨"internal_letter", [["lett.".data]], .letterParen⟩,
   ⟨"external_law", [["legge".data], ["l.".data]], .digitsSlash⟩,
   ⟨"external_dpr", [["dpr".data], ["d.p.r.".data]], .digitsSlash⟩,
   ⟨"external_dlgs", [["d.lgs.".data], ["decreto".data, "legislativo".data]], .digitsSlash⟩,
   ⟨"testo_unico", [["testo".data, "unico".data], ["t.u.".data]], .noCap⟩,
   ⟨"costituzione", [["costituzione".data]], .noCap⟩,
   ⟨"codice_civile", [["codice".data, "civile".data]], .noCap⟩]

/-- Match a capture tail at the head of `s` (case-insensitive where letters
are involved): consumed length and the capture (`none` when the pattern has
no capture group, like JS `match[1] === undefined`). -/
def matchRefTailAt : RefTail → List Char → Option (ℕ × Option (List Char))
  | .noCap, _ => some (0, none)
  | .digitsOnly, s =>
      let ds := s.takeWhile Char.isDigit
      if ds.isEmpty then none else some (ds.length, some ds)
  | .digitsSlash, s =>
      let ds := s.takeWhile Char.isDigit
      if ds.isEmpty then none
      else
        match s.drop ds.length with
        | '/' :: r2 =>
            let ds2 := r2.takeWhile Char.isDigit
            if ds2.isEmpty then none
            else some (ds.length + 1 + ds2.length, some (ds ++ '/' :: ds2))
        | _ => none
  | .letterParen, s =>
      match s with
      | a :: b :: _ =>
          if a.isAlpha && b = ')' then some (2, some [a]) else none
      | _ => none

/-- Match a full cross-reference pattern at the head of `s` (original-case
text, `/gi`): the alternative part is matched case-insensitively, then
`\s*`, then the tail. -/
def matchRefAt (p : RefPattern) (s : List Char) : Option (ℕ × Option (List Char)) :=
  (p.alts.findSome? fun alt => matchWordsCIAt alt s).bind fun altLen =>
    match p.tail with
    | .noCap => some (altLen, none)
    | t =>
        let rest := s.drop altLen
        let r1 := rest.takeWhile isJsSpace
        (matchRefTailAt t (rest.drop r1.length)).map fun cap =>
          (altLen + r1.length + cap.1, cap.2)

/-- One per-pattern entry of the reference analysis. -/
structure RefAnalysisEntry where
  refType : String
  count : ℕ
  examples : List (List Char)
  targets : List (List Char)
  deriving Repr, DecidableEq

/-- The analysis record of LegalMetadataExtractor.analyzeReferences
(lines 928-958): `reference_density` is
`Math.round(total × 1000 / textLength)`; on an empty text JS produces
`NaN`/`Infinity`, modelled as `none`. -/
structure ReferenceAnalysis where
  internal_references : List RefAnalysisEntry
  external_references : List RefAnalysisEntry
  reference_density : Option ℤ
  total_references : ℕ
  deriving Repr, DecidableEq

/-- LegalMetadataExtractor.analyzeReferences (lines 928-958). -/
def analyzeReferences (parsedDocument : ParsedDocument) : ReferenceAnalysis :=
  let text := parsedDocument.fullText.data
  let entries := referencePatterns.filterMap fun p =>
    let ms := scanAll (matchRefAt p) text
    if ms.isEmpty then none
    else some (p.name,
      (⟨p.name, ms.length, (ms.take 3).map fun m => m.2.1,
        ms.filterMap fun m => m.2.2⟩ : RefAnalysisEntry))
  let total : ℕ := (entries.map fun e => e.2.count).sum
  { internal_references :=
      (entries.filter fun e => e.1.startsWith "internal_").map fun e => e.2,
    external_references :=
      (entries.filter fun e => ¬ e.1.startsWith "internal_").map fun e => e.2,
    reference_density :=
      if parsedDocument.fullText.length = 0 then none
      else some (jsRound ((total : ℚ) * 1000 / (textLength parsedDocument : ℚ))),
    total_references := total }

/-- The analysis record of LegalMetadataExtractor.analyzeAuthority
(lines 960-1005). -/
structure AuthorityAnalysis where
  issuing_authority : String
  competent_authorities : List (String × String × ℕ)
  territorial_scope : String
  administrative_level : String
  deriving Repr, DecidableEq

/-- The competent-authority table of `analyzeAuthority` (lines 976-982):
(name, level, keywords). -/
def authorityTable : List (String × String × List String) :=
  [("Comune", "municipal", ["comune", "comunale", "sindaco", "giunta comunale"]),
   ("Regione", "regional", ["regione", "regionale", "giunta regionale"]),
   ("Provincia", "provincial", ["provincia", "provinciale"]),
   ("Ministero", "national", ["ministero", "ministeriale", "ministro"]),
   ("Soprintendenza", "special", ["soprintendenza", "soprintendente"])]

/-- LegalMetadataExtractor.analyzeAuthority (lines 960-1005).  The parser's
metadata has no `document_classification` field, so the
`parsedDocument.metadata.document_classification || classifyDocument(...)`
fallback always calls `classifyDocument`. -/
def analyzeAuthority (parsedDocument : ParsedDocument) : AuthorityAnalysis :=
  let text := toLowerList parsedDocument.fullText.data
  let classification := classifyDocument parsedDocument
  let issuing :=
    match classification.authority with
    | some a => if a = "" then "unknown" else a
    | none => "unknown"
  let competent := authorityTable.filterMap fun entry =>
    let mentions : ℕ := (entry.2.2.filter fun kw => containsSub text kw.data).length
    if 0 < mentions then some (entry.1, entry.2.1, mentions) else none
  let regional := containsSub text "regione".data || containsSub text "regionale".data
  let municipal := containsSub text "comune".data || containsSub text "comunale".data
  { issuing_authority := issuing,
    competent_authorities := competent,
    territorial_scope :=
      if regional then "regional" else if municipal then "municipal" else "national",
    administrative_level :=
      if regional then "regional" else if municipal then "municipal" else "state" }

/-- Match one date alternative `\d{a,b}[-\/]\d{c,d}[-\/]\d{e,e}`-style:
a bounded digit run is tried greedily (longest first), backtracking to the
shorter width when the separator does not follow, as the JS regex does. -/
def matchBoundedDigits (lo hi : ℕ) (s : List Char) : Option ℕ :=
  let ds := s.takeWhile Char.isDigit
  if hi ≤ ds.length then some hi
  else if lo ≤ ds.length then some ds.length
  else none

/-- A date separator `[-\/]`. -/
def isDateSep (c : Char) : Bool := c = '-' || c = '/'

/-- Match `\d{1,2}[-\/]\d{1,2}[-\/]\d{4}` at the head of `s`.  The only
backtracking the JS regex can do here is shortening a `\d{1,2}` from two
digits to one; but if two digits are available the next character is a
digit, never a separator, so the shorter width cannot succeed either:
maximal munch is equivalent. -/
def matchDMYAt (s : List Char) : Option ℕ :=
  (matchBoundedDigits 1 2 s).bind fun d1 =>
    match s.drop d1 with
    | c :: rest1 =>
        if isDateSep c then
          (matchBoundedDigits 1 2 rest1).bind fun d2 =>
            match rest1.drop d2 with
            | c2 :: rest2 =>
                if isDateSep c2 then
                  let ys := rest2.takeWhile Char.isDigit
                  if 4 ≤ ys.length then some (d1 + 1 + d2 + 1 + 4) else none
                else none
            | [] => none
        else none
    | [] => none

/-- Match `\d{4}[-\/]\d{1,2}[-\/]\d{1,2}` at the head of `s`. -/
def matchYMDAt (s : List Char) : Option ℕ :=
  let ds := s.takeWhile Char.isDigit
  if 4 ≤ ds.length then
    match s.drop 4 with
    | c :: rest1 =>
        if isDateSep c then
          (matchBoundedDigits 1 2 rest1).bind fun d2 =>
            match rest1.drop d2 with
            | c2 :: rest2 =>
                if isDateSep c2 then
                  (matchBoundedDigits 1 2 rest2).map fun d3 => 4 + 1 + d2 + 1 + d3
                else none
            | [] => none
        else none
    | [] => none
  else none

/-- The date pattern
`/(\d{1,2}[-\/]\d{1,2}[-\/]\d{4})|(\d{4}[-\/]\d{1,2}[-\/]\d{1,2})/g`:
first alternative first. -/
def matchDateAt (s : List Char) : Option (ℕ × Unit) :=
  match matchDMYAt s with
  | some n => some (n, ())
  | none => (matchYMDAt s).map fun n => (n, ())

/-- The temporal keyword list of `analyzeTemporal` (lines 1029-1032). -/
def temporalKeywords : List String :=
  ["entro", "scadenza", "termine", "decorso", "giorni", "mesi", "anni",
   "dall\'entrata in vigore", "dalla pubblicazione"]

/-- The analysis record of LegalMetadataExtractor.analyzeTemporal
(lines 1007-1042): each important date keeps its ±50-character context
window. -/
structure TemporalAnalysis where
  publication_date : Option String
  important_dates : List (List Char × List Char)
  temporal_references : List String
  has_deadlines : Bool
  deriving Repr, DecidableEq

/-- LegalMetadataExtractor.analyzeTemporal (lines 1007-1042). -/
def analyzeTemporal (parsedDocument : ParsedDocument) : TemporalAnalysis :=
  let text := parsedDocument.fullText.data
  let dates := scanAll matchDateAt text
  let found := temporalKeywords.filter fun kw =>
    containsSub (toLowerList text) kw.data
  { publication_date :=
      if parsedDocument.metadata.date = "" then none
      else some parsedDocument.metadata.date,
    important_dates := dates.map fun m =>
      (m.2.1, (text.drop (m.1 - 50)).take ((m.1 + 50) - (m.1 - 50))),
    temporal_references := found,
    has_deadlines := !found.isEmpty }

/-- The record of LegalMetadataExtractor.calculateQualityMetrics
(lines 1044-1085). -/
structure QualityMetrics where
  completeness_score : ℕ
  structure_score : ℕ
  metadata_richness : ℚ
  overall_quality : ℤ
  deriving Repr, DecidableEq

/-- LegalMetadataExtractor.calculateQualityMetrics (lines 1044-1085).  The
weighted average `0.4·c + 0.4·s + 0.2·r` is an integer for every reachable
combination of the three scores, so exact rational rounding agrees with the
JS float computation. -/
def calculateQualityMetrics (parsedDocument : ParsedDocument) : QualityMetrics :=
  let len := textLength parsedDocument
  let completeness : ℕ :=
    if 10000 < len then 95 else if 5000 < len then 80
    else if 1000 < len then 60 else 30
  let articleCount := (parsedDocument.articles.getD []).length
  let structureScore : ℕ :=
    if 20 < articleCount then 95 else if 10 < articleCount then 80
    else if 5 < articleCount then 60 else if 0 < articleCount then 40 else 20
  let fields : ℕ :=
    ([parsedDocument.metadata.title, parsedDocument.metadata.number,
      parsedDocument.metadata.date, parsedDocument.metadata.type].filter
        fun f => f ≠ "").length
  let richness : ℚ := (fields : ℚ) / 4 * 100
  { completeness_score := completeness,
    structure_score := structureScore,
    metadata_richness := richness,
    overall_quality :=
      jsRound ((completeness : ℚ) * 0.4 + (structureScore : ℚ) * 0.4 + richness * 0.2) }

/-- LegalMetadataExtractor.calculateConfidenceScore (lines 1087-1110): the
mean of four factors, rounded.  `classification.confidence || 50` treats a
zero confidence as falsy. -/
def calculateConfidenceScore (parsedDocument : ParsedDocument) : ℤ :=
  let classification := classifyDocument parsedDocument
  let f1 : ℚ := if classification.confidence = 0 then 50 else classification.confidence
  let f2 : ℚ := if 0 < (parsedDocument.articles.getD []).length then 80 else 40
  let present : ℕ :=
    ([parsedDocument.metadata.title, parsedDocument.metadata.number,
      parsedDocument.metadata.type].filter fun f => f ≠ "").length
  let f3 : ℚ := (present : ℚ) / 3 * 100
  let len := textLength parsedDocument
  let f4 : ℚ := if 5000 < len then 90 else if 1000 < len then 70 else 40
  jsRound ((f1 + f2 + f3 + f4) / 4)

/-- The `processing_info` record of `extractMetadata`: `extracted_at` is
the wall clock (`new Date().toISOString()`), passed explicitly. -/
structure ProcessingInfo where
  extracted_at : String
  extractor_version : String
  confidence_score : ℤ
  deriving Repr, DecidableEq

/-- The caller-supplied config spread over the parser metadata in
`extractMetadata` (`{...parsedDocument.metadata, ...originalConfig}`):
present keys override. -/
structure OverrideConfig where
  source : Option String := none
  title : Option String := none
  number : Option String := none
  type : Option String := none
  date : Option String := none
  deriving Repr, DecidableEq

/-- The spread-merge of the parser metadata with the override config. -/
def mergeConfig (m : DocMetadata) (cfg : OverrideConfig) : DocMetadata :=
  { m with
    source := cfg.source.getD m.source,
    title := cfg.title.getD m.title,
    number := cfg.number.getD m.number,
    type := cfg.type.getD m.type,
    date := cfg.date.getD m.date }

/-- The enriched metadata record returned by
LegalMetadataExtractor.extractMetadata (lines 686-728). -/
structure EnrichedMetadata where
  basic : DocMetadata
  document_classification : DocClassification
  topic_analysis : TopicAnalysis
  status_analysis : StatusAnalysis
  structure_analysis : StructureAnalysis
  reference_analysis : ReferenceAnalysis
  authority_analysis : AuthorityAnalysis
  temporal_analysis : TemporalAnalysis
  quality_metrics : QualityMetrics
  processing_info : ProcessingInfo
  deriving Repr, DecidableEq

/-- LegalMetadataExtractor.extractMetadata (lines 686-728), with the wall
clock as the explicit `now` parameter: every field except
`processing_info.extracted_at` is a pure function of the document and the
config. -/
def extractMetadata (parsedDocument : ParsedDocument)
    (originalConfig : OverrideConfig) (now : String) : EnrichedMetadata :=
  { basic := mergeConfig parsedDocument.metadata originalConfig,
    document_classification := classifyDocument parsedDocument,
    topic_analysis := analyzeTopics parsedDocument,
    status_analysis := analyzeStatus parsedDocument,
    structure_analysis := analyzeStructure parsedDocument,
    reference_analysis := analyzeReferences parsedDocument,
    authority_analysis := analyzeAuthority parsedDocument,
    temporal_analysis := analyzeTemporal parsedDocument,
    quality_metrics := calculateQualityMetrics parsedDocument,
    processing_info :=
      { extracted_at := now, extractor_version := "1.0.0",
        confidence_score := calculateConfidenceScore parsedDocument } }

/-- Erase the only clock-dependent field, for stating what *is*
deterministic about `extractMetadata`. -/
def eraseExtractedAt (e : EnrichedMetadata) : EnrichedMetadata :=
  { e with processing_info := { e.processing_info with extracted_at := "" } }

/-! ## Concrete example inputs used by witnesses and counterexamples -/

/-- A match with no document type and no quality score (both boosts are
then zero). -/
def plainMeta : MatchMeta := { document_type := none, quality_score := none }

/-- C1's input: one match with raw similarity 0.8 from `laws-national`
(namespace weight 0.9). -/
def c1NsResult : NamespaceResult :=
  { ns := "laws-national", result_matches := [⟨"m1", 0.8, plainMeta⟩], error := none }

/-- C2's input: two namespaces, one match each, both above the default
threshold. -/
def c2NsResults : List NamespaceResult :=
  [{ ns := "laws-national", result_matches := [⟨"m1", 0.9, plainMeta⟩], error := none },
   { ns := "urbanistica-base", result_matches := [⟨"m2", 0.8, plainMeta⟩], error := none }]

/-- C8's input: two matches, one between the two thresholds 0.5 and 0.6. -/
def c8NsResults : List NamespaceResult :=
  [{ ns := "urbanistica-base",
     result_matches := [⟨"m1", 0.9, plainMeta⟩, ⟨"m2", 0.55, plainMeta⟩],
     error := none }]

/-- C3's counterexample input: a parsed document whose `articles` field is
absent. -/
def docNoArticles : ParsedDocument :=
  { metadata := { source := "normattiva", type := "legge", number := "1" },
    articles := none, fullText := "" }

/-- C3's empty-document input: all fields present, empty text, no
articles. -/
def docEmpty : ParsedDocument :=
  { metadata := { source := "normattiva", type := "legge", number := "1" },
    articles := some [], fullText := "" }

/-- C5's input document. -/
def c5Doc : ParsedDocument :=
  { metadata := { source := "normattiva", title := "Legge urbanistica",
                  number := "1150/1942", type := "legge" },
    articles := some [],
    fullText := "Legge 1150/1942 vincolo paesaggistico. Art. 7 comma 2." }

/-- C9's failing input: a search match from the regional-laws corpus. -/
def regionalMatch : MergedMatch :=
  { id := "r1", score := 0.9, metadata := plainMeta,
    source_namespace := "laws-regional", namespace_weight := 0.85 }

/-- The query of the region-extraction property. -/
def c7Query : String :=
  "Piano regolatore generale in Lombardia - normativa regionale BUR"

end UrbanAI

/-! # Theorems -/

namespace UrbanAI

/-! ## Shared helper lemmas -/

/-- Every branch of the strategy decision table routes to the single
default namespace with weight map `{'': 1.0}`. -/
theorem determineStrategy_fields (legal regional urban : ℝ) (nq : List Char) :
    (determineStrategy legal regional urban nq).namespaces = [""] ∧
    (determineStrategy legal regional urban nq).weights = [("", 1.0)] := by
  unfold determineStrategy
  split_ifs <;> exact ⟨rfl, rfl⟩

/-- `classifyQuery` only decorates the strategy record, so its namespaces
and weights are those of `determineStrategy`. -/
theorem classifyQuery_fields (q : String) :
    (classifyQuery q).namespaces = [""] ∧
    (classifyQuery q).weights = [("", 1.0)] := by
  unfold classifyQuery
  exact determineStrategy_fields _ _ _ _

/-- The source type is decided purely by the match's `source_namespace`,
and the value `'regional'` is unreachable. -/
theorem determineSourceType_ne_regional (m : MergedMatch) :
    determineSourceType m ≠ "regional" := by
  unfold determineSourceType
  split_ifs with h1 h2 h3
  · decide
  · simp [h2] at h1
  · decide
  · decide

/-! ## C9 -/

/-- C9: the response composer never assigns source-type `'regional'`.  The
first condition of `determineSourceType` already covers
`'laws-regional'` and returns `'legal'`, so the `'regional'` branch is
dead: a `laws-regional` match is typed `'legal'`, the regional bucket of
`generateComprehensiveAnswer` is always empty, and the regional
disclaimer predicate `hasRegionalSources` is always false.  This refutes
the claim that a `laws-regional` match gets source-type `'regional'`;
the dead branch shows the claim matches the intent and the code is the
slip. -/
theorem c9_regional_source_type_unreachable :
    determineSourceType regionalMatch = "legal" ∧
    (∀ m : MergedMatch, determineSourceType m ≠ "regional") ∧
    (∀ srs : List MergedMatch, regionalBucket (processSearchResults srs) = []) ∧
    (∀ srs : List MergedMatch, hasRegionalSources (processSearchResults srs) = false) := by
  refine ⟨by decide, determineSourceType_ne_regional, ?_, ?_⟩
  · intro srs
    apply List.filter_eq_nil_iff.mpr
    intro c hc
    simp only [processSearchResults, List.mem_map] at hc
    obtain ⟨p, _, rfl⟩ := hc
    simpa using determineSourceType_ne_regional p.2
  · intro srs
    simp only [hasRegionalSources]
    rw [List.any_eq_false]
    intro c hc
    simp only [processSearchResults, List.mem_map] at hc
    obtain ⟨p, _, rfl⟩ := hc
    simpa using determineSourceType_ne_regional p.2

/-! ## C10 -/

/-- C10: for every query and in every branch of the decision table, the
classifier routes to exactly one namespace — the default namespace `''` —
with weight map `{'': 1.0}`; no strategy routes to more than one namespace
or to a named corpus-specific namespace. -/
theorem c10_single_default_namespace :
    (∀ legal regional urban : ℝ, ∀ nq : List Char,
      (determineStrategy legal regional urban nq).namespaces = [""] ∧
      (determineStrategy legal regional urban nq).weights = [("", 1.0)]) ∧
    (∀ q : String,
      (classifyQuery q).namespaces = [""] ∧
      (classifyQuery q).weights = [("", 1.0)]) :=
  ⟨determineStrategy_fields, classifyQuery_fields⟩

/-! ## C6 -/

/-- C6: for every query string the classification satisfies the weight
invariant: the namespace weights sum to 1.0 within 0.01, and every
namespace of the classification's namespace list has an entry in the
weight map. -/
theorem c6_weight_invariant :
    ∀ q : String,
      |((classifyQuery q).weights.map Prod.snd).sum - 1| ≤ (0.01 : ℚ) ∧
      ∀ ns ∈ (classifyQuery q).namespaces,
        ((classifyQuery q).weights.lookup ns).isSome = true := by
  intro q
  obtain ⟨hn, hw⟩ := classifyQuery_fields q
  rw [hn, hw]
  constructor
  · norm_num
  · intro ns hns
    simp only [List.mem_singleton] at hns
    subst hns
    rfl

/-! ## C5 -/

/-- C5 counterexample: `extractMetadata` stamps the wall clock into
`processing_info.extracted_at`, so two calls on the identical document and
config (at different instants) give different outputs. -/
theorem c5_counterexample_timestamp :
    extractMetadata c5Doc {} "2024-01-01T00:00:00.000Z" ≠
      extractMetadata c5Doc {} "2024-01-01T00:00:01.000Z" := by
  intro h
  have h2 : "2024-01-01T00:00:00.000Z" = "2024-01-01T00:00:01.000Z" :=
    congrArg (fun e => e.processing_info.extracted_at) h
  exact absurd h2 (by decide)

/-- C5 (amended): apart from the `processing_info.extracted_at` wall-clock
stamp, `extractMetadata` is pure and deterministic — erasing that one
field makes the outputs of any two calls on identical document and config
equal. -/
theorem c5_deterministic_modulo_timestamp :
    ∀ (doc : ParsedDocument) (cfg : OverrideConfig) (t1 t2 : String),
      eraseExtractedAt (extractMetadata doc cfg t1) =
        eraseExtractedAt (extractMetadata doc cfg t2) := by
  intro doc cfg t1 t2
  rfl

/-! ## C3 -/

/-- C3 counterexample: a parsed document with the `articles` field absent
makes `chunkDocument` throw (`parsedDocument.articles.length` on line 65),
rather than return a result. -/
theorem c3_counterexample_missing_articles :
    chunkDocument docNoArticles =
      Except.error "TypeError: Cannot read properties of undefined (reading length)" := rfl

/-- C3 (amended): when the structural field `articles` is present
(possibly as an empty list), `chunkDocument` never throws — it returns a
result for every document, and on an empty document text it returns zero
chunks; but when `articles` is absent it throws, as the counterexample
shows. -/
theorem c3_total_when_articles_present :
    (∀ (doc : ParsedDocument) (arts : List Article),
      doc.articles = some arts → ∃ res, chunkDocument doc = Except.ok res) ∧
    (chunkDocument docEmpty).toOption.map ChunkResult.chunks = some [] := by
  constructor
  · intro doc arts h
    unfold chunkDocument
    rw [h]
    exact ⟨_, rfl⟩
  · decide

/-! ## C7 -/

/-- The square root of 64. -/
theorem sqrt64_eq : Real.sqrt 64 = 8 := by
  rw [show (64:ℝ) = 8^2 by norm_num, Real.sqrt_sq (by norm_num : (0:ℝ) ≤ 8)]

/-- One urban keyword hit gives score `0.9/8 = 0.1125 ≤ 0.2`. -/
theorem urban_score_low : calculateScore 1 64 0.9 ≤ 0.2 := by
  unfold calculateScore
  rw [if_neg (by norm_num)]
  have h1 : min ((1:ℝ) / Real.sqrt 64) 1 ≤ 1/8 := by
    rw [sqrt64_eq]; exact min_le_left _ _
  have h2 : min ((1:ℝ) / Real.sqrt 64) 1 * 0.9 ≤ (1/8) * 0.9 :=
    mul_le_mul_of_nonneg_right h1 (by norm_num)
  push_cast
  linarith

/-- Three regional keyword hits give score `0.8 · 3/√44 ≥ 0.8 · 3/8 = 0.3`,
meeting the regional threshold. -/
theorem regional_score_high : regionalConfidenceThreshold ≤ calculateScore 3 44 0.8 := by
  unfold calculateScore regionalConfidenceThreshold
  rw [if_neg (by norm_num)]
  have hle : Real.sqrt 44 ≤ 8 := by
    rw [← sqrt64_eq]; exact Real.sqrt_le_sqrt (by norm_num)
  have hpos : (0:ℝ) < Real.sqrt 44 := Real.sqrt_pos.mpr (by norm_num)
  have h38 : (3:ℝ)/8 ≤ 3 / Real.sqrt 44 := by
    apply div_le_div_of_nonneg_left (by norm_num) hpos hle
  have hmin : (3:ℝ)/8 ≤ min ((3:ℝ) / Real.sqrt 44) 1 := le_min h38 (by norm_num)
  have := mul_le_mul_of_nonneg_right hmin (by norm_num : (0:ℝ) ≤ 0.8)
  push_cast
  linarith

/-- C7: classifying `"Piano regolatore generale in Lombardia - normativa
regionale BUR"` extracts the region code `LOM` and lands in the
`regional-focus` branch: the normalized query has 1 legal, 3 regional and
1 urban keyword hits, so the urban score (0.1125) fails the `> 0.2` tests
of the first two branches while the regional score (≈ 0.362) meets its
0.3 threshold. -/
theorem c7_region_extraction_regional_focus :
    (classifyQuery c7Query).strategy = "regional-focus" ∧
    (classifyQuery c7Query).filters_region = some "LOM" ∧
    ∃ qa, (classifyQuery c7Query).query_analysis = some qa ∧
      qa.extracted_region = some "LOM" := by
  have hl : countMatches (normalizeQuery c7Query.data) legalKeywords = 1 := by decide
  have hr : countMatches (normalizeQuery c7Query.data) regionalKeywords = 3 := by decide
  have hu : countMatches (normalizeQuery c7Query.data) urbanKeywords = 1 := by decide
  have hreg : extractRegion (normalizeQuery c7Query.data) = some "LOM" := by decide
  have hL : legalKeywords.length = 51 := by decide
  have hR : regionalKeywords.length = 44 := by decide
  have hU : urbanKeywords.length = 64 := by decide
  have hcond1 : ¬(legalConfidenceThreshold ≤ calculateScore 1 51 1.0 ∧
      regionalConfidenceThreshold ≤ calculateScore 3 44 0.8 ∧
      (0.2:ℝ) < calculateScore 1 64 0.9) := by
    rintro ⟨-, -, h⟩
    exact absurd h (not_lt.mpr urban_score_low)
  have hcond2 : ¬(legalConfidenceThreshold ≤ calculateScore 1 51 1.0 ∧
      (0.2:ℝ) < calculateScore 1 64 0.9) := by
    rintro ⟨-, h⟩
    exact absurd h (not_lt.mpr urban_score_low)
  simp only [classifyQuery, hl, hr, hu, hL, hR, hU]
  unfold determineStrategy
  rw [if_neg hcond1, if_neg hcond2, if_pos regional_score_high]
  refine ⟨rfl, ?_, ?_⟩
  · simpa using hreg
  · exact ⟨_, rfl, by simpa using hreg⟩

/-! ## Query-engine helper lemmas -/

/-- A match produced by the tagging step comes from a non-errored
namespace result, carries its raw score, metadata and id unchanged, and is
tagged with that namespace and its weight. -/
theorem tagMatches_sourceOf {r : NamespaceResult} {m : MergedMatch}
    (h : m ∈ tagMatches r) :
    r.error = none ∧ ∃ m0 ∈ r.result_matches, m.id = m0.id ∧ m.score = m0.score ∧
      m.metadata = m0.metadata ∧ m.source_namespace = r.ns ∧
      m.namespace_weight = weightOf r.ns := by
  unfold tagMatches at h
  cases herr : r.error with
  | some e => rw [herr] at h; simp at h
  | none =>
      rw [herr] at h
      simp only [List.mem_map] at h
      obtain ⟨m0, hm0, rfl⟩ := h
      exact ⟨rfl, m0, hm0, rfl, rfl, rfl, rfl, rfl⟩

/-- Every merged match comes from the tagging of some input namespace
result (the sort permutes and the slice only drops elements). -/
theorem mergeNamespaceResults_mem {results : List NamespaceResult} {k : ℕ}
    {m : MergedMatch} (h : m ∈ mergeNamespaceResults results k) :
    ∃ r ∈ results, m ∈ tagMatches r := by
  unfold mergeNamespaceResults at h
  have h2 : m ∈ (results.flatMap tagMatches).insertionSort mergeLE :=
    (List.take_sublist _ _).subset h
  have h3 : m ∈ results.flatMap tagMatches :=
    ((List.perm_insertionSort mergeLE _).mem_iff).mp h2
  exact List.mem_flatMap.mp h3

/-- Enhancement adds the legal-context boost (when the metadata marks a
legal document type) and the diversity boost to the match's own score and
changes nothing else. -/
theorem enhanceMatch_spec (m : MergedMatch) :
    (enhanceMatch m).score = m.score +
        (if isLegalMeta m.metadata then legalContextBoost else 0) +
        diversityBoostOf m.metadata ∧
    (enhanceMatch m).id = m.id ∧ (enhanceMatch m).metadata = m.metadata ∧
    (enhanceMatch m).source_namespace = m.source_namespace ∧
    (enhanceMatch m).namespace_weight = m.namespace_weight := by
  unfold enhanceMatch isLegalDocument calculateDiversityBoost
  by_cases h : isLegalMeta m.metadata <;> simp [h]

/-- The merge output is ordered by the weighted score (descending): the
namespace weight acts exactly as the sort key. -/
theorem mergeNamespaceResults_sorted (results : List NamespaceResult) (k : ℕ) :
    (mergeNamespaceResults results k).Sorted mergeLE := by
  unfold mergeNamespaceResults
  exact List.Pairwise.sublist (List.take_sublist _ _) (List.sorted_insertionSort mergeLE _)

/-! ## C1 -/

/-- C1 counterexample: one `laws-national` match (weight 0.9) with raw
similarity 0.8 and no boosts.  The search pipeline reports its score as
0.8 — the raw score, not the weight-multiplied 0.72 the claim asserts —
and the 0.75 threshold keeps it even though the weight-multiplied score
would fall below the threshold. -/
theorem c1_counterexample_score_not_weighted :
    (querySearch [c1NsResult] 2 0.75).map MergedMatch.score = [0.8] ∧
    applyThreshold (enhanceResults (mergeNamespaceResults [c1NsResult] 4)) 0.75 ≠ [] ∧
    ¬((0.8 : ℚ) = 0.8 * weightOf "laws-national" +
        ((if isLegalMeta plainMeta then legalContextBoost else 0) +
          diversityBoostOf plainMeta)) := by
  have hw : weightOf "laws-national" = 0.9 := by
    norm_num [weightOf, jsOrQ, namespaceWeights, List.lookup,
      show ("laws-national" == "__default__") = false from by decide,
      show ("laws-national" == "urbanistica-base") = false from by decide,
      show ("laws-national" == "laws-national") = true from by decide]
  have hleg : isLegalMeta plainMeta = false := by decide
  have hdiv : diversityBoostOf plainMeta = 0 := by
    norm_num [diversityBoostOf, plainMeta, diversityBoostFactor]
  have hflat : ([c1NsResult].flatMap tagMatches) =
      [{ id := "m1", score := 0.8, metadata := plainMeta,
         source_namespace := "laws-national",
         namespace_weight := weightOf "laws-national" }] := rfl
  have hsort : (([c1NsResult].flatMap tagMatches).insertionSort mergeLE) =
      [{ id := "m1", score := 0.8, metadata := plainMeta,
         source_namespace := "laws-national",
         namespace_weight := weightOf "laws-national" }] := by
    rw [hflat]; simp [List.insertionSort]
  refine ⟨?_, ?_, ?_⟩
  · unfold querySearch rerankResults executeMultiNamespaceSearch mergeNamespaceResults
    rw [hsort]
    norm_num [adjustedTopK, maxTopK, applyThreshold, enhanceResults, enhanceMatch,
      isLegalDocument, hleg, calculateDiversityBoost, hdiv, List.insertionSort,
      List.orderedInsert]
  · unfold mergeNamespaceResults
    rw [hsort]
    norm_num [applyThreshold, enhanceResults, enhanceMatch, isLegalDocument, hleg,
      calculateDiversityBoost, hdiv]
  · rw [hw, hleg]
    norm_num [hdiv]

/-- C1 (amended): merging keeps each match's stored score equal to its raw
similarity — the namespace weight enters only as the merge's sort and
truncation key — and the legal-content and diversity boosts are then added
to that raw score; the relevance threshold and the final ranking operate
on this boosted raw score.  Part one traces every surviving search result
back to its raw match; part two states that the merge output is sorted by
`score × weight`. -/
theorem c1_boosted_raw_scores_and_weighted_merge_order :
    (∀ (results : List NamespaceResult) (topK : ℕ) (t : ℚ) (m : MergedMatch),
      m ∈ querySearch results topK t →
        t ≤ m.score ∧
        ∃ r ∈ results, r.error = none ∧ ∃ m0 ∈ r.result_matches,
          m.id = m0.id ∧ m.metadata = m0.metadata ∧
          m.source_namespace = r.ns ∧ m.namespace_weight = weightOf r.ns ∧
          m.score = m0.score +
            (if isLegalMeta m0.metadata then legalContextBoost else 0) +
            diversityBoostOf m0.metadata) ∧
    (∀ (results : List NamespaceResult) (k : ℕ),
      (mergeNamespaceResults results k).Sorted mergeLE) := by
  constructor
  · intro results topK t m h
    unfold querySearch rerankResults at h
    have h2 : m ∈ applyThreshold (enhanceResults (executeMultiNamespaceSearch results topK)) t :=
      ((List.perm_insertionSort _ _).mem_iff).mp h
    unfold applyThreshold at h2
    rw [List.mem_filter] at h2
    obtain ⟨h3, ht⟩ := h2
    have ht' : t ≤ m.score := by simpa using ht
    unfold enhanceResults at h3
    rw [List.mem_map] at h3
    obtain ⟨m1, hm1, rfl⟩ := h3
    unfold executeMultiNamespaceSearch at hm1
    obtain ⟨r, hr, hmr⟩ := mergeNamespaceResults_mem hm1
    obtain ⟨herr, m0, hm0, hid, hsc, hmd, hns, hw⟩ := tagMatches_sourceOf hmr
    obtain ⟨es, eid, emd, ens, ew⟩ := enhanceMatch_spec m1
    refine ⟨ht', r, hr, herr, m0, hm0, ?_, ?_, ?_, ?_, ?_⟩
    · rw [eid, hid]
    · rw [emd, hmd]
    · rw [ens, hns]
    · rw [ew, hw]
    · rw [es, hsc, hmd]
  · exact mergeNamespaceResults_sorted

/-! ## C2 -/

/-- C2 counterexample: with `topK = 1` and two namespaces contributing one
above-threshold match each, the search returns 2 results — more than
`topK`.  No truncation to the requested `topK` happens anywhere in the
pipeline. -/
theorem c2_counterexample_more_than_topk :
    ¬((querySearch c2NsResults 1 defaultThreshold).length ≤ 1) := by
  have hw1 : weightOf "laws-national" = 0.9 := by
    norm_num [weightOf, jsOrQ, namespaceWeights, List.lookup,
      show ("laws-national" == "__default__") = false from by decide,
      show ("laws-national" == "urbanistica-base") = false from by decide,
      show ("laws-national" == "laws-national") = true from by decide]
  have hw2 : weightOf "urbanistica-base" = 1.0 := by
    norm_num [weightOf, jsOrQ, namespaceWeights, List.lookup,
      show ("urbanistica-base" == "__default__") = false from by decide,
      show ("urbanistica-base" == "urbanistica-base") = true from by decide]
  have hflat : (c2NsResults.flatMap tagMatches) =
      [{ id := "m1", score := 0.9, metadata := plainMeta,
         source_namespace := "laws-national",
         namespace_weight := weightOf "laws-national" },
       { id := "m2", score := 0.8, metadata := plainMeta,
         source_namespace := "urbanistica-base",
         namespace_weight := weightOf "urbanistica-base" }] := rfl
  have hml : mergeLE
      { id := "m1", score := 0.9, metadata := plainMeta,
        source_namespace := "laws-national",
        namespace_weight := weightOf "laws-national" }
      { id := "m2", score := 0.8, metadata := plainMeta,
        source_namespace := "urbanistica-base",
        namespace_weight := weightOf "urbanistica-base" } := by
    unfold mergeLE weightedScore jsOrQ
    rw [hw1, hw2]
    norm_num
  have hsort : ((c2NsResults.flatMap tagMatches).insertionSort mergeLE) =
      [{ id := "m1", score := 0.9, metadata := plainMeta,
         source_namespace := "laws-national",
         namespace_weight := weightOf "laws-national" },
       { id := "m2", score := 0.8, metadata := plainMeta,
         source_namespace := "urbanistica-base",
         namespace_weight := weightOf "urbanistica-base" }] := by
    rw [hflat]
    simp only [List.insertionSort, List.orderedInsert]
    rw [if_pos hml]
  intro hlen
  have h2 : (querySearch c2NsResults 1 defaultThreshold).length = 2 := by
    unfold querySearch rerankResults
    rw [(List.perm_insertionSort _ _).length_eq]
    unfold executeMultiNamespaceSearch mergeNamespaceResults
    rw [show adjustedTopK 1 = 2 from rfl, hsort]
    simp only [List.take_succ_cons, List.take_zero, List.take_nil]
    unfold enhanceResults applyThreshold
    rw [List.map_cons, List.map_cons, List.map_nil]
    rw [List.filter_cons, List.filter_cons, List.filter_nil]
    rw [show (decide (defaultThreshold ≤ (enhanceMatch
        { id := "m1", score := 0.9, metadata := plainMeta,
          source_namespace := "laws-national",
          namespace_weight := weightOf "laws-national" }).score)) = true from by
      norm_num [enhanceMatch, isLegalDocument, isLegalMeta, plainMeta,
        calculateDiversityBoost, diversityBoostOf, diversityBoostFactor, defaultThreshold]]
    rw [show (decide (defaultThreshold ≤ (enhanceMatch
        { id := "m2", score := 0.8, metadata := plainMeta,
          source_namespace := "urbanistica-base",
          namespace_weight := weightOf "urbanistica-base" }).score)) = true from by
      norm_num [enhanceMatch, isLegalDocument, isLegalMeta, plainMeta,
        calculateDiversityBoost, diversityBoostOf, diversityBoostFactor, defaultThreshold]]
    rfl
  rw [h2] at hlen
  exact absurd hlen (by norm_num)

/-- C2 (amended): the only truncation in the multi-corpus path is the
merge's slice to `adjustedTopK = min(2·topK, maxTopK)`, so the search
returns at most `min(2·topK, 100)` results — not at most `topK` — and the
response formatting maps the final list one-to-one. -/
theorem c2_results_bounded_by_adjusted_topk :
    ∀ (results : List NamespaceResult) (topK : ℕ) (t : ℚ),
      (querySearch results topK t).length ≤ min (topK * 2) maxTopK ∧
      (formatResults (querySearch results topK t)).length =
        (querySearch results topK t).length := by
  intro results topK t
  constructor
  · unfold querySearch rerankResults
    rw [(List.perm_insertionSort _ _).length_eq]
    calc (applyThreshold (enhanceResults (executeMultiNamespaceSearch results topK)) t).length
        ≤ (enhanceResults (executeMultiNamespaceSearch results topK)).length :=
          List.length_filter_le _ _
      _ = (executeMultiNamespaceSearch results topK).length := List.length_map _ _
      _ ≤ min (topK * 2) maxTopK := by
          unfold executeMultiNamespaceSearch mergeNamespaceResults adjustedTopK
          rw [List.length_take]
          exact min_le_left _ _
  · unfold formatResults
    rw [List.length_map, List.enum_length]

/-! ## C8 -/

/-- C8: threshold monotonicity.  For a fixed set of namespace results
(fixed query and classification), raising the relevance threshold shrinks
the result set: with `t1 ≤ t2` every result returned at threshold `t2` is
also returned at threshold `t1`, and the result count does not
increase. -/
theorem c8_threshold_monotonic :
    ∀ (results : List NamespaceResult) (topK : ℕ) (t1 t2 : ℚ), t1 ≤ t2 →
      (∀ m, m ∈ querySearch results topK t2 → m ∈ querySearch results topK t1) ∧
      (querySearch results topK t2).length ≤ (querySearch results topK t1).length := by
  intro results topK t1 t2 h12
  constructor
  · intro m hm
    unfold querySearch rerankResults at hm ⊢
    have hm2 := ((List.perm_insertionSort _ _).mem_iff).mp hm
    unfold applyThreshold at hm2 ⊢
    rw [List.mem_filter] at hm2
    refine ((List.perm_insertionSort _ _).mem_iff).mpr ?_
    rw [List.mem_filter]
    refine ⟨hm2.1, ?_⟩
    have ht2 : t2 ≤ m.score := by simpa using hm2.2
    simpa using le_trans h12 ht2
  · unfold querySearch rerankResults
    rw [(List.perm_insertionSort _ _).length_eq, (List.perm_insertionSort _ _).length_eq]
    unfold applyThreshold
    refine List.Sublist.length_le (List.monotone_filter_right _ ?_)
    intro a ha
    have : t2 ≤ a.score := by simpa using ha
    simpa using le_trans h12 this

/-- C8 witness: the monotonicity theorem applied at the concrete thresholds
0.5 ≤ 0.6 on a concrete pair of matches. -/
theorem c8_threshold_monotonic_witness :
    ((0.5 : ℚ) ≤ 0.6) ∧
    ((∀ m, m ∈ querySearch c8NsResults 10 0.6 → m ∈ querySearch c8NsResults 10 0.5) ∧
     (querySearch c8NsResults 10 0.6).length ≤ (querySearch c8NsResults 10 0.5).length) :=
  ⟨by norm_num, c8_threshold_monotonic c8NsResults 10 0.5 0.6 (by norm_num)⟩


/-! ## C4 helper lemmas: every chunk id in the pipeline is a
`generateChunkId` of the document metadata, some hierarchy and some
position -/

/-- `createChunk` stamps exactly `generateChunkId metadata hierarchy
position` and stores the position. -/
theorem createChunk_id (text : List Char) (md : DocMetadata) (pos : ℕ)
    (hier : Hierarchy) (ctx : String) :
    (createChunk text md pos hier ctx).chunk_id = generateChunkId md hier pos ∧
    (createChunk text md pos hier ctx).position_in_doc = pos := ⟨rfl, rfl⟩

/-- Every force-split chunk's id is a `generateChunkId` of the metadata. -/
theorem forceSplitGo_ids (md : DocMetadata) (hier : Hierarchy) (text : List Char) :
    ∀ (fuel i pos : ℕ), ∀ c ∈ forceSplitGo md hier text fuel i pos,
      ∃ h p, c.chunk_id = generateChunkId md h p ∧ c.position_in_doc = p := by
  intro fuel
  induction fuel with
  | zero => intro i pos c hc; simp [forceSplitGo] at hc
  | succ n ih =>
      intro i pos c hc
      unfold forceSplitGo at hc
      by_cases hlen : text.length ≤ i
      · rw [if_pos hlen] at hc; simp at hc
      · rw [if_neg hlen] at hc
        rcases List.mem_cons.mp hc with rfl | htail
        · exact ⟨hier, pos, rfl, rfl⟩
        · exact ih _ _ c htail

/-- Every chunk the segment-accumulation loop emits has a `generateChunkId` id. -/
theorem chunkTextLoop_ids (md : DocMetadata) (hier : Hierarchy) :
    ∀ (segs : List Segment) (cur : List Char) (pos : ℕ),
      ∀ c ∈ chunkTextLoop md hier segs cur pos,
        ∃ h p, c.chunk_id = generateChunkId md h p ∧ c.position_in_doc = p := by
  intro segs
  induction segs with
  | nil =>
      intro cur pos c hc
      unfold chunkTextLoop at hc
      by_cases hcur : cur.isEmpty
      · rw [if_pos hcur] at hc; simp at hc
      · rw [if_neg hcur] at hc
        rcases List.mem_singleton.mp hc with rfl
        exact ⟨hier, pos, rfl, rfl⟩
  | cons seg rest ih =>
      intro cur pos c hc
      unfold chunkTextLoop at hc
      by_cases h1 : estimateTokens (cur ++ (if cur.isEmpty then [] else [' ']) ++ seg.text) ≤ maxChunkSize
      · rw [if_pos h1] at hc
        exact ih _ _ c hc
      · rw [if_neg h1] at hc
        by_cases h2 : maxChunkSize < estimateTokens seg.text
        · rw [if_pos h2] at hc
          rcases List.mem_append.mp hc with hc1 | hc2
          · rcases List.mem_append.mp hc1 with hf | hforce
            · by_cases hcur : cur.isEmpty
              · rw [if_pos hcur] at hf; simp at hf
              · rw [if_neg hcur] at hf
                rcases List.mem_singleton.mp hf with rfl
                exact ⟨hier, pos, rfl, rfl⟩
            · exact forceSplitGo_ids md hier seg.text _ _ _ c hforce
          · exact ih _ _ c hc2
        · rw [if_neg h2] at hc
          rcases List.mem_append.mp hc with hf | hc2
          · by_cases hcur : cur.isEmpty
            · rw [if_pos hcur] at hf; simp at hf
            · rw [if_neg hcur] at hf
              rcases List.mem_singleton.mp hf with rfl
              exact ⟨hier, pos, rfl, rfl⟩
          · exact ih _ _ c hc2
/-- Every chunk of `chunkText` has a `generateChunkId` id. -/
theorem chunkText_ids (text : List Char) (md : DocMetadata) (hier : Hierarchy)
    (pos : ℕ) : ∀ c ∈ chunkText text md hier pos,
      ∃ h p, c.chunk_id = generateChunkId md h p ∧ c.position_in_doc = p :=
  chunkTextLoop_ids md hier _ [] pos

/-- Every chunk of the comma loop has a `generateChunkId` id. -/
theorem commasLoop_ids (article : Article) (md : DocMetadata) :
    ∀ (commas : List Comma) (pos : ℕ), ∀ c ∈ commasLoop article md commas pos,
      ∃ h p, c.chunk_id = generateChunkId md h p ∧ c.position_in_doc = p := by
  intro commas
  induction commas with
  | nil => intro pos c hc; simp [commasLoop] at hc
  | cons comma rest ih =>
      intro pos c hc
      unfold commasLoop at hc
      by_cases h1 : estimateTokens comma.content.data ≤ maxChunkSize
      · rw [if_pos h1] at hc
        rcases List.mem_cons.mp hc with rfl | htail
        · exact ⟨⟨some article.number, some article.title, some comma.number, none⟩, pos, rfl, rfl⟩
        · exact ih _ c htail
      · rw [if_neg h1] at hc
        rcases List.mem_append.mp hc with hf | htail
        · exact chunkText_ids _ md _ pos c hf
        · exact ih _ c htail

/-- Every chunk of `chunkLargeArticle` has a `generateChunkId` id. -/
theorem chunkLargeArticle_ids (article : Article) (md : DocMetadata) (pos : ℕ) :
    ∀ c ∈ chunkLargeArticle article md pos,
      ∃ h p, c.chunk_id = generateChunkId md h p ∧ c.position_in_doc = p := by
  intro c hc
  unfold chunkLargeArticle at hc
  by_cases h1 : 1 < article.commas.length
  · rw [if_pos h1] at hc
    exact commasLoop_ids article md _ pos c hc
  · rw [if_neg h1] at hc
    exact chunkText_ids _ md _ pos c hc

/-- Every chunk of the article loop has a `generateChunkId` id. -/
theorem chunkByArticlesGo_ids (md : DocMetadata) :
    ∀ (articles : List Article) (pos : ℕ), ∀ c ∈ chunkByArticlesGo md articles pos,
      ∃ h p, c.chunk_id = generateChunkId md h p ∧ c.position_in_doc = p := by
  intro articles
  induction articles with
  | nil => intro pos c hc; simp [chunkByArticlesGo] at hc
  | cons article rest ih =>
      intro pos c hc
      unfold chunkByArticlesGo at hc
      by_cases h1 : estimateTokens article.content.data ≤ maxChunkSize
      · rw [if_pos h1] at hc
        rcases List.mem_cons.mp hc with rfl | htail
        · exact ⟨⟨some article.number, some article.title, none, none⟩, pos, rfl, rfl⟩
        · exact ih _ c htail
      · rw [if_neg h1] at hc
        rcases List.mem_append.mp hc with hf | htail
        · exact chunkLargeArticle_ids article md pos c hf
        · exact ih _ c htail

/-- Post-processing only rewrites a chunk's text and token count: ids and
positions come from the input chunks. -/
theorem postProcessLoop_ids :
    ∀ (cs : List Chunk) (prev : Option Chunk), ∀ c' ∈ postProcessLoop prev cs,
      ∃ c ∈ cs, c'.chunk_id = c.chunk_id ∧ c'.position_in_doc = c.position_in_doc := by
  intro cs
  induction cs with
  | nil => intro prev c' hc; simp [postProcessLoop] at hc
  | cons chunk rest ih =>
      intro prev c' hc
      unfold postProcessLoop at hc
      rcases List.mem_cons.mp hc with rfl | htail
      · refine ⟨chunk, List.mem_cons_self _ _, ?_⟩
        cases prev with
        | none => exact ⟨rfl, rfl⟩
        | some prevChunk =>
            dsimp only
            split
            · split
              · exact ⟨rfl, rfl⟩
              · exact ⟨rfl, rfl⟩
            · exact ⟨rfl, rfl⟩
      · obtain ⟨c, hcmem, hid, hpos⟩ := ih _ c' htail
        exact ⟨c, List.mem_cons_of_mem _ hcmem, hid, hpos⟩

/-- The post-processing pass (overlap injection + validity filter)
preserves chunk ids and positions. -/
theorem postProcessChunks_ids (cs : List Chunk) :
    ∀ c' ∈ postProcessChunks cs,
      ∃ c ∈ cs, c'.chunk_id = c.chunk_id ∧ c'.position_in_doc = c.position_in_doc := by
  intro c' hc
  unfold postProcessChunks at hc
  exact postProcessLoop_ids cs none c' (List.mem_filter.mp hc).1

/-! ## C4 -/

/-- C4: chunk ids are deterministic and composed only of the document id,
the article/comma hierarchy numbers and the sequential position.  Part one
spells out the composition of `generateChunkId` (document id, `_art`/
`_comma` parts for the truthy hierarchy levels, `_chunk` position); part
two shows every chunk of every successful `chunkDocument` run carries such
an id built from the document's metadata.  The embedding is a pure
function of the parsed document — no clock or randomness occurs anywhere
in chunker.js — so re-running it on identical input trivially yields the
identical id sequence. -/
theorem c4_chunk_ids_deterministic_composition :
    (∀ (metadata : DocMetadata) (hierarchy : Hierarchy) (position : ℕ),
      generateChunkId metadata hierarchy position =
        generateDocumentId metadata
          ++ (match hierarchy.article with
              | some a => if a.isEmpty then "" else "_art" ++ a
              | none => "")
          ++ (match hierarchy.comma with
              | some c => if c.isEmpty then "" else "_comma" ++ c
              | none => "")
          ++ "_chunk" ++ toString position) ∧
    (∀ (doc : ParsedDocument) (res : ChunkResult), chunkDocument doc = Except.ok res →
      ∀ c ∈ res.chunks, ∃ h p,
        c.chunk_id = generateChunkId doc.metadata h p ∧ c.position_in_doc = p) := by
  constructor
  · intro metadata hierarchy position
    unfold generateChunkId
    simp only [String.append_assoc]
  · intro doc res hres c hc
    unfold chunkDocument at hres
    cases harts : doc.articles with
    | none => rw [harts] at hres; simp at hres
    | some arts =>
        rw [harts] at hres
        have hchunks : res.chunks = postProcessChunks
            (if 0 < arts.length then chunkByArticles doc.metadata arts
             else chunkByStructure doc) := by
          cases hres
          rfl
        rw [hchunks] at hc
        obtain ⟨c0, hc0, hid, hpos⟩ := postProcessChunks_ids _ c hc
        by_cases hlen : 0 < arts.length
        · rw [if_pos hlen] at hc0
          obtain ⟨h, p, hid0, hpos0⟩ := chunkByArticlesGo_ids doc.metadata arts 0 c0 hc0
          exact ⟨h, p, hid.trans hid0, hpos.trans hpos0⟩
        · rw [if_neg hlen] at hc0
          obtain ⟨h, p, hid0, hpos0⟩ := chunkText_ids _ _ _ _ c0 hc0
          exact ⟨h, p, hid.trans hid0, hpos.trans hpos0⟩

end UrbanAI
